import Mathlib

/-!
Shallow embedding of the `my-lang-js` interpreter (authoritative final
iteration: `src/basic.ts` together with `src/Position.ts`).

The pipeline is `text → Lexer → tokens → Parser → AST → Interpreter → value`.
JavaScript mutable state (the list-element arrays shared between `ListValue`
objects, and the mutable parent-chained `SymbolTable`s) is modelled with an
explicit `Store` of arrays and table frames addressed by `Nat`; numeric
values are modelled as `ℚ` (every computation exercised by the claims is
exact in double precision, so `ℚ` is faithful on them); host-level crashes
(JavaScript `TypeError`s on `null`, `NaN` results, and similar) are modelled
as a `RunError.host` outcome.  Recursive evaluation is bounded by an explicit
fuel parameter; running out of fuel is also a `RunError.host` outcome.
-/

namespace MyLang

/-- `Position` from `src/Position.ts`: `{index, row, col, fileName, fileText}`. -/
structure Position where
  index : Nat
  row : Nat
  col : Nat
  fileName : String
  fileText : String
deriving Repr, DecidableEq

/-- `Position.advance(char)`: `index++; col++; if (char === "\n") { col = 0; row++ }`.
`none` models the JavaScript `null`/`""` arguments (neither is `"\n"`). -/
def Position.advance (p : Position) (c : Option Char) : Position :=
  let q : Position := { p with index := p.index + 1, col := p.col + 1 }
  if c = some '\n' then { q with col := 0, row := q.row + 1 } else q

/-- `Position.copy()` (Lean values already have value semantics). -/
def Position.copy (p : Position) : Position := p

/- Token type constants `TT_*` from `src/basic.ts`. -/
def TT_INT : String := "INT"
def TT_FLOAT : String := "FLOAT"
def TT_STRING : String := "STRING"
def TT_IDENTIFIER : String := "IDENTIFIER"
def TT_KEYWORD : String := "KEYWORD"
def TT_PLUS : String := "PLUS"
def TT_MINUS : String := "MINUS"
def TT_MUL : String := "MUL"
def TT_DIV : String := "DIV"
def TT_POW : String := "POW"
def TT_EQ : String := "EQ"
def TT_LPAREN : String := "LPAREN"
def TT_RPAREN : String := "RPAREN"
def TT_LSQUARE : String := "LSQUARE"
def TT_RSQUARE : String := "RSQUARE"
def TT_EE : String := "EE"
def TT_NE : String := "NE"
def TT_LT : String := "LT"
def TT_GT : String := "GT"
def TT_LTE : String := "LTE"
def TT_GTE : String := "GTE"
def TT_COMMA : String := "COMMA"
def TT_ARROW : String := "ARROW"
def TT_EOF : String := "EOF"

def KEYWORDS : List String :=
  ["var", "&&", "||", "!", "if", "then", "elif", "else", "for", "to", "step",
   "while", "fun"]

/-- `Token {type, value?, posStart?, posEnd?}`. -/
structure Token where
  type : String
  value : Option String
  posStart : Option Position
  posEnd : Option Position
deriving Repr, DecidableEq

/-- The `Token` constructor: when `posStart` is given, `posStart` is copied and
`posEnd` defaults to `posStart.copy().advance("")`; an explicit `posEnd`
argument overrides that default. -/
def mkToken (type : String) (value : Option String)
    (posStart posEnd : Option Position) : Token :=
  let defEnd : Option Position :=
    match posStart with
    | some p => some (p.advance none)
    | none => none
  { type := type, value := value, posStart := posStart,
    posEnd := match posEnd with | some p => some p | none => defEnd }

/-- `Token.matches(type, value)`. -/
def Token.matchesKV (t : Token) (type value : String) : Bool :=
  t.type = type && t.value = some value

/-- `BasicError {name, posStart, posEnd, message}` (lex and syntax errors). -/
structure BasicError where
  name : String
  posStart : Option Position
  posEnd : Option Position
  message : String
deriving Repr, DecidableEq

def illegalCharError (posStart posEnd : Position) (message : String) : BasicError :=
  { name := "Illegal CharError", posStart := some posStart,
    posEnd := some posEnd, message := message }

def invalidSyntaxError (posStart posEnd : Option Position) (message : String) : BasicError :=
  { name := "Invalid Syntax", posStart := posStart, posEnd := posEnd,
    message := message }

/-!  ## Lexer

The `Lexer` object keeps `pos` (a `Position` into `text`) and
`curChar = text[pos.index] ?? null`.  We carry the suffix
`rest = text.drop pos.index` explicitly, so `curChar` is `rest.head?`; this is
observably identical because `advance` is the only way the lexer moves. -/

structure LexState where
  pos : Position
  rest : List Char
deriving Repr, DecidableEq

/-- `Lexer.advance()`: `pos.advance(curChar)` then refetch `curChar`. -/
def lexAdvance (s : LexState) : LexState :=
  { pos := s.pos.advance s.rest.head?, rest := s.rest.tail }

/-- The lexer state right after the `Lexer` constructor ran (`pos` starts at
index `-1` and one `advance()` brings it to index `0`, row `0`, col `0`). -/
def lexInit (fileName text : String) : LexState :=
  { pos := { index := 0, row := 0, col := 0, fileName := fileName,
             fileText := text },
    rest := text.toList }

/-- `!DIGITS.test(c)` where `DIGITS = /[^0-9\.]/`: digit or dot. -/
def isDigitDot (c : Char) : Bool := c.isDigit || c = '.'

/-- `!LETTERS.test(c)` where `LETTERS = /[^a-zA-Z0-9_]/`. -/
def isLetterCh (c : Char) : Bool := c.isAlpha || c.isDigit || c = '_'

/-- The scan loop of `Lexer.makeNumber`: greedily consume digits and `.`,
tracking `isDot`; a second `.` breaks out of the loop (`// error` in source).
The loop recurses structurally on the unread suffix; `lexAdvance` on a state
with `rest = c :: r` is exactly `⟨pos.advance (some c), r⟩`. -/
def makeNumberLoop : List Char → Position → String → Bool →
    List Char × Position × String × Bool
  | [], pos, numStr, isDot => ([], pos, numStr, isDot)
  | c :: r, pos, numStr, isDot =>
    if isDigitDot c then
      if c = '.' then
        if isDot then (c :: r, pos, numStr, isDot)
        else makeNumberLoop r (pos.advance (some c)) (numStr.push '.') true
      else makeNumberLoop r (pos.advance (some c)) (numStr.push c) isDot
    else (c :: r, pos, numStr, isDot)

/-- `Lexer.makeNumber`. -/
def makeNumber (s : LexState) : Token × LexState :=
  let posStart := s.pos.copy
  let r := makeNumberLoop s.rest s.pos "" false
  let s' : LexState := { pos := r.2.1, rest := r.1 }
  let numStr := r.2.2.1
  let isDot := r.2.2.2
  (mkToken (if isDot then TT_FLOAT else TT_INT) (some numStr)
     (some posStart) (some s'.pos), s')

/-- The scan loop of `Lexer.makeIdentifier`. -/
def makeIdentifierLoop : List Char → Position → String →
    List Char × Position × String
  | [], pos, idStr => ([], pos, idStr)
  | c :: r, pos, idStr =>
    if isLetterCh c then makeIdentifierLoop r (pos.advance (some c)) (idStr.push c)
    else (c :: r, pos, idStr)

/-- `Lexer.makeIdentifier`: keyword check against `KEYWORDS`. -/
def makeIdentifier (s : LexState) : Token × LexState :=
  let posStart := s.pos.copy
  let r := makeIdentifierLoop s.rest s.pos ""
  let s' : LexState := { pos := r.2.1, rest := r.1 }
  let idStr := r.2.2
  let tokenType := if KEYWORDS.contains idStr then TT_KEYWORD else TT_IDENTIFIER
  (mkToken tokenType (some idStr) (some posStart) (some s'.pos), s')

/-- `escapeCaracters[c] || c` from `Lexer.makeString`. -/
def escapeChar (c : Char) : Char :=
  if c = 'n' then '\n' else if c = 't' then '\t' else c

/-- The scan loop of `Lexer.makeString`.  Note the source never resets
`escapeCharacter` to `false`, so once a backslash is seen every following
character (including `"`) is consumed as escaped; we reproduce that. -/
def makeStringLoop : List Char → Position → String → Bool →
    List Char × Position × String
  | [], pos, str, _ => ([], pos, str)
  | c :: r, pos, str, escapeCharacter =>
    if c = '"' && !escapeCharacter then (c :: r, pos, str)
    else
      if escapeCharacter then
        makeStringLoop r (pos.advance (some c)) (str.push (escapeChar c))
          escapeCharacter
      else
        if c = '\\' then makeStringLoop r (pos.advance (some c)) str true
        else makeStringLoop r (pos.advance (some c)) (str.push c)
          escapeCharacter

/-- `Lexer.makeString`: consumes the opening `"`, the body, then one more
`advance()` (past the closing `"`, or past end of input if unterminated). -/
def makeString (s : LexState) : Token × LexState :=
  let posStart := s.pos.copy
  let s1 := lexAdvance s
  let r := makeStringLoop s1.rest s1.pos "" false
  let s2 := lexAdvance { pos := r.2.1, rest := r.1 }
  (mkToken TT_STRING (some r.2.2) (some posStart) (some s2.pos), s2)

/-- `Lexer.makeMinusOrArrow`. -/
def makeMinusOrArrow (s : LexState) : Token × LexState :=
  let posStart := s.pos.copy
  let s1 := lexAdvance s
  if s1.rest.head? = some '>' then
    let s2 := lexAdvance s1
    (mkToken TT_ARROW none (some posStart) (some s2.pos), s2)
  else (mkToken TT_MINUS none (some posStart) (some s1.pos), s1)

/-- `Lexer.makeMulOrPow`. -/
def makeMulOrPow (s : LexState) : Token × LexState :=
  let posStart := s.pos.copy
  let s1 := lexAdvance s
  if s1.rest.head? = some '*' then
    let s2 := lexAdvance s1
    (mkToken TT_POW none (some posStart) (some s2.pos), s2)
  else (mkToken TT_MUL none (some posStart) (some s1.pos), s1)

/-- `Lexer.makeNotEquals`: `!=` or the keyword token `!`. -/
def makeNotEquals (s : LexState) : Token × LexState :=
  let posStart := s.pos.copy
  let s1 := lexAdvance s
  if s1.rest.head? = some '=' then
    let s2 := lexAdvance s1
    (mkToken TT_NE none (some posStart) (some s2.pos), s2)
  else (mkToken TT_KEYWORD (some "!") (some posStart) (some s1.pos), s1)

/-- `Lexer.makeEquals`: `=` or `==`. -/
def makeEquals (s : LexState) : Token × LexState :=
  let posStart := s.pos.copy
  let s1 := lexAdvance s
  if s1.rest.head? = some '=' then
    let s2 := lexAdvance s1
    (mkToken TT_EE none (some posStart) (some s2.pos), s2)
  else (mkToken TT_EQ none (some posStart) (some s1.pos), s1)

/-- `Lexer.makeLessThan`: `<` or `<=`. -/
def makeLessThan (s : LexState) : Token × LexState :=
  let posStart := s.pos.copy
  let s1 := lexAdvance s
  if s1.rest.head? = some '=' then
    let s2 := lexAdvance s1
    (mkToken TT_LTE none (some posStart) (some s2.pos), s2)
  else (mkToken TT_LT none (some posStart) (some s1.pos), s1)

/-- `Lexer.makeGreaterThan`: `>` or `>=`. -/
def makeGreaterThan (s : LexState) : Token × LexState :=
  let posStart := s.pos.copy
  let s1 := lexAdvance s
  if s1.rest.head? = some '=' then
    let s2 := lexAdvance s1
    (mkToken TT_GTE none (some posStart) (some s2.pos), s2)
  else (mkToken TT_GT none (some posStart) (some s1.pos), s1)

/-- `Lexer.makeAnd`: for `&&` a keyword token; for a lone `&` the source
function falls off its end and returns `undefined` (modelled as `none`),
which `makeTokens` then pushes into the token array. -/
def makeAnd (s : LexState) : Option Token × LexState :=
  let posStart := s.pos.copy
  let s1 := lexAdvance s
  if s1.rest.head? = some '&' then
    let s2 := lexAdvance s1
    (some (mkToken TT_KEYWORD (some "&&") (some posStart) (some s2.pos)), s2)
  else (none, s1)

/-- `Lexer.makeOr`: `||` or `undefined` for a lone `|`. -/
def makeOr (s : LexState) : Option Token × LexState :=
  let posStart := s.pos.copy
  let s1 := lexAdvance s
  if s1.rest.head? = some '|' then
    let s2 := lexAdvance s1
    (some (mkToken TT_KEYWORD (some "||") (some posStart) (some s2.pos)), s2)
  else (none, s1)

theorem makeNumberLoop_length_le (l : List Char) (pos : Position)
    (acc : String) (d : Bool) :
    (makeNumberLoop l pos acc d).1.length ≤ l.length := by
  induction l generalizing pos acc d with
  | nil => simp [makeNumberLoop]
  | cons c r ih =>
    simp only [makeNumberLoop]
    split
    · split
      · split
        · simp
        · exact le_trans (ih _ _ _) (by simp)
      · exact le_trans (ih _ _ _) (by simp)
    · simp

theorem makeIdentifierLoop_length_le (l : List Char) (pos : Position)
    (acc : String) :
    (makeIdentifierLoop l pos acc).1.length ≤ l.length := by
  induction l generalizing pos acc with
  | nil => simp [makeIdentifierLoop]
  | cons c r ih =>
    simp only [makeIdentifierLoop]
    split
    · exact le_trans (ih _ _) (by simp)
    · simp

theorem makeStringLoop_length_le (l : List Char) (pos : Position)
    (acc : String) (e : Bool) :
    (makeStringLoop l pos acc e).1.length ≤ l.length := by
  induction l generalizing pos acc e with
  | nil => simp [makeStringLoop]
  | cons c r ih =>
    simp only [makeStringLoop]
    split
    · simp
    · split
      · exact le_trans (ih _ _ _) (by simp)
      · split
        · exact le_trans (ih _ _ _) (by simp)
        · exact le_trans (ih _ _ _) (by simp)

/-- The main loop of `Lexer.makeTokens`: `while (curChar !== null)` — first
the digit/dot check, then the letter check, then the character switch.
Whitespace is skipped; an unrecognized character raises
`IllegalCharError`; at end of input one EOF token is appended.  The source
pushes each produced token into an array; this recursion produces the same
list front-to-back.  The `&`/`|` cases push the possibly-`undefined` result
of `makeAnd`/`makeOr`, hence the `Option Token` elements.  The recursion is
bounded by a fuel that `makeTokens` sets to `text.length + 1`, which always
suffices because every iteration consumes at least one character. -/
def makeTokensLoop : Nat → LexState → Except BasicError (List (Option Token))
  | 0, _ =>
    .error { name := "OutOfFuel", posStart := none, posEnd := none,
             message := "lexer out of fuel" }
  | fuel + 1, s =>
    match s.rest with
    | [] => .ok [some (mkToken TT_EOF none (some s.pos) none)]
    | c :: _ =>
      if isDigitDot c then
        let t := makeNumber s
        (makeTokensLoop fuel t.2).map (fun ts => some t.1 :: ts)
      else if isLetterCh c then
        let t := makeIdentifier s
        (makeTokensLoop fuel t.2).map (fun ts => some t.1 :: ts)
      else if c = ' ' ∨ c = '\t' ∨ c = '\n' then
        makeTokensLoop fuel (lexAdvance s)
      else if c = '+' then
        (makeTokensLoop fuel (lexAdvance s)).map
          (fun ts => some (mkToken TT_PLUS none (some s.pos) none) :: ts)
      else if c = '-' then
        let t := makeMinusOrArrow s
        (makeTokensLoop fuel t.2).map (fun ts => some t.1 :: ts)
      else if c = '*' then
        let t := makeMulOrPow s
        (makeTokensLoop fuel t.2).map (fun ts => some t.1 :: ts)
      else if c = '/' then
        (makeTokensLoop fuel (lexAdvance s)).map
          (fun ts => some (mkToken TT_DIV none (some s.pos) none) :: ts)
      else if c = '(' then
        (makeTokensLoop fuel (lexAdvance s)).map
          (fun ts => some (mkToken TT_LPAREN none (some s.pos) none) :: ts)
      else if c = ')' then
        (makeTokensLoop fuel (lexAdvance s)).map
          (fun ts => some (mkToken TT_RPAREN none (some s.pos) none) :: ts)
      else if c = '[' then
        (makeTokensLoop fuel (lexAdvance s)).map
          (fun ts => some (mkToken TT_LSQUARE none (some s.pos) none) :: ts)
      else if c = ']' then
        (makeTokensLoop fuel (lexAdvance s)).map
          (fun ts => some (mkToken TT_RSQUARE none (some s.pos) none) :: ts)
      else if c = ',' then
        (makeTokensLoop fuel (lexAdvance s)).map
          (fun ts => some (mkToken TT_COMMA none (some s.pos) none) :: ts)
      else if c = '!' then
        let t := makeNotEquals s
        (makeTokensLoop fuel t.2).map (fun ts => some t.1 :: ts)
      else if c = '=' then
        let t := makeEquals s
        (makeTokensLoop fuel t.2).map (fun ts => some t.1 :: ts)
      else if c = '>' then
        let t := makeGreaterThan s
        (makeTokensLoop fuel t.2).map (fun ts => some t.1 :: ts)
      else if c = '<' then
        let t := makeLessThan s
        (makeTokensLoop fuel t.2).map (fun ts => some t.1 :: ts)
      else if c = '&' then
        let t := makeAnd s
        (makeTokensLoop fuel t.2).map (fun ts => t.1 :: ts)
      else if c = '|' then
        let t := makeOr s
        (makeTokensLoop fuel t.2).map (fun ts => t.1 :: ts)
      else if c = '"' then
        let t := makeString s
        (makeTokensLoop fuel t.2).map (fun ts => some t.1 :: ts)
      else
        let posStart := s.pos.copy
        let s' := lexAdvance s
        .error (illegalCharError posStart s'.pos (String.singleton c))

/-- `Lexer.makeTokens()` on a fresh `Lexer(fileName, text)`. -/
def makeTokens (fileName text : String) : Except BasicError (List (Option Token)) :=
  makeTokensLoop (text.length + 1) (lexInit fileName text)

/-!  ## AST nodes

Every `BasicNode` subclass stores the `(posStart, posEnd)` span computed by
its constructor; the span fields appear on each variant and the `mk*Node`
functions below reproduce the constructors' span computations. -/

inductive Node where
  | numberNode (token : Token) (posStart posEnd : Option Position)
  | stringNode (token : Token) (posStart posEnd : Option Position)
  | listNode (elementNodes : List Node) (posStart posEnd : Option Position)
  | varAccessNode (varNameToken : Token) (posStart posEnd : Option Position)
  | varAssignNode (varNameToken : Token) (valueNode : Node)
      (posStart posEnd : Option Position)
  | unaryOpNode (token : Token) (node : Node) (posStart posEnd : Option Position)
  | ifNode (cases : List (Node × Node)) (elseCase : Option Node)
      (posStart posEnd : Option Position)
  | forNode (varNameToken : Token) (startNode endNode : Node)
      (stepNode : Option Node) (bodyNode : Node)
      (posStart posEnd : Option Position)
  | funcDefNode (varNameToken : Option Token) (argNameTokens : List Token)
      (bodyNode : Node) (posStart posEnd : Option Position)
  | callNode (nodeToCall : Node) (argNodes : List Node)
      (posStart posEnd : Option Position)
  | whileNode (conditionNode : Node) (bodyNode : Node)
      (posStart posEnd : Option Position)
  | binOpNode (leftNode : Node) (token : Token) (rightNode : Node)
      (posStart posEnd : Option Position)
deriving Repr

/-- `BasicNode.posStart`. -/
def Node.posStart : Node → Option Position
  | .numberNode _ ps _ => ps
  | .stringNode _ ps _ => ps
  | .listNode _ ps _ => ps
  | .varAccessNode _ ps _ => ps
  | .varAssignNode _ _ ps _ => ps
  | .unaryOpNode _ _ ps _ => ps
  | .ifNode _ _ ps _ => ps
  | .forNode _ _ _ _ _ ps _ => ps
  | .funcDefNode _ _ _ ps _ => ps
  | .callNode _ _ ps _ => ps
  | .whileNode _ _ ps _ => ps
  | .binOpNode _ _ _ ps _ => ps

/-- `BasicNode.posEnd`. -/
def Node.posEnd : Node → Option Position
  | .numberNode _ _ pe => pe
  | .stringNode _ _ pe => pe
  | .listNode _ _ pe => pe
  | .varAccessNode _ _ pe => pe
  | .varAssignNode _ _ _ pe => pe
  | .unaryOpNode _ _ _ pe => pe
  | .ifNode _ _ _ pe => pe
  | .forNode _ _ _ _ _ _ pe => pe
  | .funcDefNode _ _ _ _ pe => pe
  | .callNode _ _ _ pe => pe
  | .whileNode _ _ _ pe => pe
  | .binOpNode _ _ _ _ pe => pe

/-- `new NumberNode(token)`: span `(token.posStart, token.posEnd)`. -/
def mkNumberNode (token : Token) : Node :=
  .numberNode token token.posStart token.posEnd

/-- `new StringNode(token)`. -/
def mkStringNode (token : Token) : Node :=
  .stringNode token token.posStart token.posEnd

/-- `new ListNode(elementNodes, posStart, posEnd)`. -/
def mkListNode (elementNodes : List Node) (posStart posEnd : Option Position) :
    Node :=
  .listNode elementNodes posStart posEnd

/-- `new VarAccessNode(varNameToken)`. -/
def mkVarAccessNode (t : Token) : Node :=
  .varAccessNode t t.posStart t.posEnd

/-- `new VarAssignNode(varNameToken, valueNode)`:
span `(varNameToken.posStart, valueNode.posEnd)`. -/
def mkVarAssignNode (t : Token) (valueNode : Node) : Node :=
  .varAssignNode t valueNode t.posStart valueNode.posEnd

/-- `new UnaryOpNode(token, node)`. -/
def mkUnaryOpNode (t : Token) (n : Node) : Node :=
  .unaryOpNode t n t.posStart n.posEnd

/-- `new IfNode(cases, elseCase)`: span from `cases[0][0].posStart` to the
else-branch's end, or the last case's *condition* end when there is none. -/
def mkIfNode (cases : List (Node × Node)) (elseCase : Option Node) : Node :=
  .ifNode cases elseCase
    ((cases.head?).bind (fun c => c.1.posStart))
    (match elseCase with
     | some e => e.posEnd
     | none => (cases.getLast?).bind (fun c => c.1.posEnd))

/-- `new ForNode(...)`: span `(varNameToken.posStart, bodyNode.posEnd)`. -/
def mkForNode (v : Token) (startNode endNode : Node) (stepNode : Option Node)
    (bodyNode : Node) : Node :=
  .forNode v startNode endNode stepNode bodyNode v.posStart bodyNode.posEnd

/-- `new FuncDefNode(...)`. -/
def mkFuncDefNode (v : Option Token) (argNameTokens : List Token)
    (bodyNode : Node) : Node :=
  .funcDefNode v argNameTokens bodyNode
    (match v with
     | some t => t.posStart
     | none =>
       match argNameTokens.head? with
       | some t => t.posStart
       | none => bodyNode.posStart)
    bodyNode.posEnd

/-- `new CallNode(nodeToCall, argNodes)`. -/
def mkCallNode (nodeToCall : Node) (argNodes : List Node) : Node :=
  .callNode nodeToCall argNodes nodeToCall.posStart
    (match argNodes.getLast? with
     | some a => a.posEnd
     | none => nodeToCall.posEnd)

/-- `new WhileNode(conditionNode, bodyNode)`. -/
def mkWhileNode (c b : Node) : Node :=
  .whileNode c b c.posStart b.posEnd

/-- `new BinOpNode(leftNode, token, rightNode)`. -/
def mkBinOpNode (l : Node) (t : Token) (r : Node) : Node :=
  .binOpNode l t r l.posStart r.posEnd

/-!  ## Parser

`ParseRusult` (spelling kept from the source) carries the furthest-failure
bookkeeping (`advanceCount`); `Parser` itself is the token list plus the
current index.  Each grammar method below returns its `ParseRusult` together
with the parser state it leaves behind.  Mutual recursion through the grammar
is bounded by an explicit fuel parameter (decremented on every nested call);
exhausting it yields a distinguished `out of fuel` result that no run in this
development reaches. -/

structure ParseRusult where
  error : Option BasicError
  node : Option Node
  advanceCount : Nat
deriving Repr

def prInit : ParseRusult := { error := none, node := none, advanceCount := 0 }

def ParseRusult.hasError (r : ParseRusult) : Bool := r.error.isSome

/-- `registerAdvancement()`. -/
def ParseRusult.regAdv (r : ParseRusult) : ParseRusult :=
  { r with advanceCount := r.advanceCount + 1 }

/-- `register(res)`: absorb the sub-result's advance count and error; the
caller separately uses `res.node`. -/
def ParseRusult.registerFrom (self res : ParseRusult) : ParseRusult :=
  { self with
      advanceCount := self.advanceCount + res.advanceCount,
      error := if res.hasError then res.error else self.error }

/-- `success(node)`. -/
def ParseRusult.success (r : ParseRusult) (node : Node) : ParseRusult :=
  { r with node := some node }

/-- `failure(error)`: only overwrite when there is no error yet or no token
was consumed (furthest-failure policy). -/
def ParseRusult.failure (r : ParseRusult) (error : BasicError) : ParseRusult :=
  if !r.hasError || r.advanceCount = 0 then { r with error := some error }
  else r

/-- The fuel-exhaustion result (unreachable with the fuels used here). -/
def outOfFuelP : ParseRusult :=
  { error := some { name := "OutOfFuel", posStart := none, posEnd := none,
                    message := "parser out of fuel" },
    node := none, advanceCount := 0 }

structure ParserState where
  tokens : List Token
  index : Nat
deriving Repr

/-- `this.curToken`.  The parser never reads past the EOF token (every rule
stops there), so the fallback value is unreachable. -/
def ParserState.curToken (p : ParserState) : Token :=
  (p.tokens.get? p.index).getD (mkToken TT_EOF none none none)

/-- `Parser.advance()`. -/
def ParserState.adv (p : ParserState) : ParserState :=
  { p with index := p.index + 1 }

/-- The operator test in `binOp`:
`ops.includes(type) || ops.includes(type + ":" + value)`. -/
def opMatches (ops : List String) (t : Token) : Bool :=
  ops.contains t.type ||
    ops.contains (t.type ++ ":" ++ (match t.value with
      | some v => v
      | none => "undefined"))

/-- The `while` loop inside `Parser.binOp`. -/
def binOpLoop (handle_b : ParserState → ParseRusult × ParserState)
    (ops : List String) :
    Nat → Node → ParseRusult → ParserState → ParseRusult × ParserState
  | 0, _, _, p => (outOfFuelP, p)
  | fuel + 1, leftNode, res, p =>
    if opMatches ops p.curToken then
      let token := p.curToken
      let res := res.regAdv
      let p := p.adv
      let (r2, p) := handle_b p
      let res := res.registerFrom r2
      if res.hasError then (res, p)
      else
        match r2.node with
        | some rightNode =>
          binOpLoop handle_b ops fuel (mkBinOpNode leftNode token rightNode) res p
        | none => (res, p)
    else (res.success leftNode, p)

/-- `Parser.binOp(handle_a, ops, handle_b)` (generic left-associative
combinator; `handle_b` defaults to `handle_a` at the call sites). -/
def binOpP (handle_a handle_b : ParserState → ParseRusult × ParserState)
    (ops : List String) (fuel : Nat) (p : ParserState) :
    ParseRusult × ParserState :=
  let res := prInit
  let (r1, p) := handle_a p
  let res := res.registerFrom r1
  if res.hasError then (res, p)
  else
    match r1.node with
    | some leftNode => binOpLoop handle_b ops fuel leftNode res p
    | none => (res, p)

mutual

/-- `Parser.expr()`. -/
def exprP : Nat → ParserState → ParseRusult × ParserState
  | 0, p => (outOfFuelP, p)
  | fuel + 1, p =>
    let res := prInit
    if p.curToken.matchesKV TT_KEYWORD "var" then
      let res := res.regAdv
      let p := p.adv
      let varName := p.curToken
      if varName.type ≠ TT_IDENTIFIER then
        (res.failure (invalidSyntaxError p.curToken.posStart p.curToken.posEnd
          "Expected identifier"), p)
      else
        let res := res.regAdv
        let p := p.adv
        if p.curToken.type ≠ TT_EQ then
          (res.failure (invalidSyntaxError p.curToken.posStart p.curToken.posEnd
            "Expected \x27=\x27"), p)
        else
          let res := res.regAdv
          let p := p.adv
          let (r1, p) := exprP fuel p
          let res := res.registerFrom r1
          if res.hasError then (res, p)
          else
            match r1.node with
            | some valueNode => (res.success (mkVarAssignNode varName valueNode), p)
            | none => (res, p)
    else
      let (r1, p) := binOpP (compExprP fuel) (compExprP fuel)
        [TT_KEYWORD ++ ":&&", TT_KEYWORD ++ ":||"] fuel p
      let res := res.registerFrom r1
      if res.hasError then
        (res.failure (invalidSyntaxError p.curToken.posStart p.curToken.posEnd
          "Expected \x27var\x27, \x27if\x27, \x27for\x27, \x27while\x27, \x27fun\x27, int, float, identifier, \x27+\x27, \x27-\x27, \x27(\x27, \x27[\x27 or \x27!\x27"), p)
      else
        match r1.node with
        | some node => (res.success node, p)
        | none => (res, p)

/-- `Parser.compExpr()`. -/
def compExprP : Nat → ParserState → ParseRusult × ParserState
  | 0, p => (outOfFuelP, p)
  | fuel + 1, p =>
    let res := prInit
    if p.curToken.matchesKV TT_KEYWORD "!" then
      let opToken := p.curToken
      let res := res.regAdv
      let p := p.adv
      let (r1, p) := compExprP fuel p
      let res := res.registerFrom r1
      if res.hasError then (res, p)
      else
        match r1.node with
        | some node => (res.success (mkUnaryOpNode opToken node), p)
        | none => (res, p)
    else
      let (r1, p) := binOpP (arithExprP fuel) (arithExprP fuel)
        [TT_EE, TT_NE, TT_LT, TT_GT, TT_LTE, TT_GTE] fuel p
      let res := res.registerFrom r1
      if res.hasError then
        (res.failure (invalidSyntaxError p.curToken.posStart p.curToken.posEnd
          "Expected int, float, identifier, \x27+\x27, \x27-\x27, \x27(\x27, \x27!\x27"), p)
      else
        match r1.node with
        | some node => (res.success node, p)
        | none => (res, p)

/-- `Parser.arithExpr()`. -/
def arithExprP : Nat → ParserState → ParseRusult × ParserState
  | 0, p => (outOfFuelP, p)
  | fuel + 1, p => binOpP (termP fuel) (termP fuel) [TT_PLUS, TT_MINUS] fuel p

/-- `Parser.term()`. -/
def termP : Nat → ParserState → ParseRusult × ParserState
  | 0, p => (outOfFuelP, p)
  | fuel + 1, p => binOpP (factorP fuel) (factorP fuel) [TT_MUL, TT_DIV] fuel p

/-- `Parser.factor()`. -/
def factorP : Nat → ParserState → ParseRusult × ParserState
  | 0, p => (outOfFuelP, p)
  | fuel + 1, p =>
    let res := prInit
    let token := p.curToken
    if token.type = TT_PLUS ∨ token.type = TT_MINUS then
      let res := res.regAdv
      let p := p.adv
      let (r1, p) := factorP fuel p
      let res := res.registerFrom r1
      if res.hasError then (res, p)
      else
        match r1.node with
        | some f => (res.success (mkUnaryOpNode token f), p)
        | none => (res, p)
    else powerP fuel p

/-- `Parser.power()`. -/
def powerP : Nat → ParserState → ParseRusult × ParserState
  | 0, p => (outOfFuelP, p)
  | fuel + 1, p => binOpP (callP fuel) (factorP fuel) [TT_POW] fuel p

/-- `Parser.call()`. -/
def callP : Nat → ParserState → ParseRusult × ParserState
  | 0, p => (outOfFuelP, p)
  | fuel + 1, p =>
    let res := prInit
    let (r1, p) := atomP fuel p
    let res := res.registerFrom r1
    if res.hasError then (res, p)
    else
      match r1.node with
      | some _atom =>
        if p.curToken.type = TT_LPAREN then
          let res := res.regAdv
          let p := p.adv
          if p.curToken.type = TT_RPAREN then
            let res := res.regAdv
            let p := p.adv
            (res.success (mkCallNode _atom []), p)
          else
            let (r2, p) := exprP fuel p
            let res := res.registerFrom r2
            if res.hasError then
              (res.failure (invalidSyntaxError p.curToken.posStart
                p.curToken.posEnd
                "Expected \x27)\x27, \x27var\x27, \x27if\x27, \x27for\x27, \x27while\x27, \x27fun\x27, int, float, identifier, \x27+\x27, \x27-\x27, \x27(\x27 or \x27!\x27"), p)
            else
              match r2.node with
              | some firstArg =>
                callArgsLoop fuel _atom [firstArg] res p
              | none => (res, p)
        else (res.success _atom, p)
      | none => (res, p)

/-- The argument `while (COMMA)` loop plus closing-paren check of
`Parser.call()`. -/
def callArgsLoop : Nat → Node → List Node → ParseRusult → ParserState →
    ParseRusult × ParserState
  | 0, _, _, _, p => (outOfFuelP, p)
  | fuel + 1, _atom, argNodes, res, p =>
    if p.curToken.type = TT_COMMA then
      let res := res.regAdv
      let p := p.adv
      let (r2, p) := exprP fuel p
      let res := res.registerFrom r2
      if res.hasError then (res, p)
      else
        match r2.node with
        | some arg => callArgsLoop fuel _atom (argNodes ++ [arg]) res p
        | none => (res, p)
    else if p.curToken.type ≠ TT_RPAREN then
      (res.failure (invalidSyntaxError p.curToken.posStart p.curToken.posEnd
        "Expected \x27,\x27 or \x27)\x27"), p)
    else
      let res := res.regAdv
      let p := p.adv
      (res.success (mkCallNode _atom argNodes), p)

/-- `Parser.atom()`. -/
def atomP : Nat → ParserState → ParseRusult × ParserState
  | 0, p => (outOfFuelP, p)
  | fuel + 1, p =>
    let res := prInit
    let token := p.curToken
    if token.type = TT_INT ∨ token.type = TT_FLOAT then
      let res := res.regAdv
      let p := p.adv
      (res.success (mkNumberNode token), p)
    else if token.type = TT_STRING then
      let res := res.regAdv
      let p := p.adv
      (res.success (mkStringNode token), p)
    else if token.type = TT_IDENTIFIER then
      let res := res.regAdv
      let p := p.adv
      (res.success (mkVarAccessNode token), p)
    else if token.type = TT_LPAREN then
      let res := res.regAdv
      let p := p.adv
      let (r1, p) := exprP fuel p
      let res := res.registerFrom r1
      if res.hasError then (res, p)
      else if p.curToken.type = TT_RPAREN then
        let res := res.regAdv
        let p := p.adv
        match r1.node with
        | some _expr => (res.success _expr, p)
        | none => (res, p)
      else
        (res.failure (invalidSyntaxError p.curToken.posStart p.curToken.posEnd
          "Expected \x27)\x27"), p)
    else if token.type = TT_LSQUARE then
      let (r1, p) := listExprP fuel p
      let res := res.registerFrom r1
      if res.hasError then (res, p)
      else
        match r1.node with
        | some n => (res.success n, p)
        | none => (res, p)
    else if token.matchesKV TT_KEYWORD "if" then
      let (r1, p) := ifExprP fuel p
      let res := res.registerFrom r1
      if res.hasError then (res, p)
      else
        match r1.node with
        | some n => (res.success n, p)
        | none => (res, p)
    else if token.matchesKV TT_KEYWORD "for" then
      let (r1, p) := forExprP fuel p
      let res := res.registerFrom r1
      if res.hasError then (res, p)
      else
        match r1.node with
        | some n => (res.success n, p)
        | none => (res, p)
    else if token.matchesKV TT_KEYWORD "while" then
      let (r1, p) := whileExprP fuel p
      let res := res.registerFrom r1
      if res.hasError then (res, p)
      else
        match r1.node with
        | some n => (res.success n, p)
        | none => (res, p)
    else if token.matchesKV TT_KEYWORD "fun" then
      let (r1, p) := funDefP fuel p
      let res := res.registerFrom r1
      if res.hasError then (res, p)
      else
        match r1.node with
        | some n => (res.success n, p)
        | none => (res, p)
    else
      (res.failure (invalidSyntaxError token.posStart token.posEnd
        "Expected int, float, identifier, \x27+\x27, \x27-\x27, \x27(\x27, \x27if\x27, \x27for\x27, \x27while\x27, \x27fun\x27"), p)

/-- `Parser.listExpr()`. -/
def listExprP : Nat → ParserState → ParseRusult × ParserState
  | 0, p => (outOfFuelP, p)
  | fuel + 1, p =>
    let res := prInit
    let posStart := p.curToken.posStart
    let res := res.regAdv
    let p := p.adv
    if p.curToken.type = TT_RSQUARE then
      let res := res.regAdv
      let p := p.adv
      (res.success (mkListNode [] posStart p.curToken.posEnd), p)
    else
      let (r1, p) := exprP fuel p
      let res := res.registerFrom r1
      if res.hasError then
        (res.failure (invalidSyntaxError p.curToken.posStart p.curToken.posEnd
          "Expected \x27]\x27, \x27var\x27, \x27if\x27, \x27for\x27, \x27while\x27, \x27fun\x27, int, float, identifier, \x27+\x27, \x27-\x27, \x27(\x27 or \x27!\x27"), p)
      else
        match r1.node with
        | some firstElem => listElemsLoop fuel posStart [firstElem] res p
        | none => (res, p)

/-- The element `while (COMMA)` loop plus closing-bracket check of
`Parser.listExpr()`. -/
def listElemsLoop : Nat → Option Position → List Node → ParseRusult →
    ParserState → ParseRusult × ParserState
  | 0, _, _, _, p => (outOfFuelP, p)
  | fuel + 1, posStart, elems, res, p =>
    if p.curToken.type = TT_COMMA then
      let res := res.regAdv
      let p := p.adv
      let (r2, p) := exprP fuel p
      let res := res.registerFrom r2
      if res.hasError then (res, p)
      else
        match r2.node with
        | some e => listElemsLoop fuel posStart (elems ++ [e]) res p
        | none => (res, p)
    else if p.curToken.type ≠ TT_RSQUARE then
      (res.failure (invalidSyntaxError p.curToken.posStart p.curToken.posEnd
        "Expected \x27,\x27 or \x27]\x27"), p)
    else
      let res := res.regAdv
      let p := p.adv
      (res.success (mkListNode elems posStart p.curToken.posEnd), p)

/-- `Parser.ifExpr()`: the `if` keyword, first condition/branch, then the
`elif`/`else` tail handled by `ifCasesLoop`. -/
def ifExprP : Nat → ParserState → ParseRusult × ParserState
  | 0, p => (outOfFuelP, p)
  | fuel + 1, p =>
    let res := prInit
    if ¬ p.curToken.matchesKV TT_KEYWORD "if" then
      (res.failure (invalidSyntaxError p.curToken.posStart p.curToken.posEnd
        "Expected \x27if\x27"), p)
    else
      let res := res.regAdv
      let p := p.adv
      let (r1, p) := exprP fuel p
      let res := res.registerFrom r1
      if res.hasError then (res, p)
      else
        match r1.node with
        | some condition =>
          if ¬ p.curToken.matchesKV TT_KEYWORD "then" then
            (res.failure (invalidSyntaxError p.curToken.posStart
              p.curToken.posEnd "Expected \x27then\x27"), p)
          else
            let res := res.regAdv
            let p := p.adv
            let (r2, p) := exprP fuel p
            let res := res.registerFrom r2
            if res.hasError then (res, p)
            else
              match r2.node with
              | some _expr => ifCasesLoop fuel [(condition, _expr)] res p
              | none => (res, p)
        | none => (res, p)

/-- The `while ('elif')` loop plus optional `else` of `Parser.ifExpr()`. -/
def ifCasesLoop : Nat → List (Node × Node) → ParseRusult → ParserState →
    ParseRusult × ParserState
  | 0, _, _, p => (outOfFuelP, p)
  | fuel + 1, cases, res, p =>
    if p.curToken.matchesKV TT_KEYWORD "elif" then
      let res := res.regAdv
      let p := p.adv
      let (r1, p) := exprP fuel p
      let res := res.registerFrom r1
      if res.hasError then (res, p)
      else
        match r1.node with
        | some condition =>
          if ¬ p.curToken.matchesKV TT_KEYWORD "then" then
            (res.failure (invalidSyntaxError p.curToken.posStart
              p.curToken.posEnd "Expected \x27then\x27"), p)
          else
            let res := res.regAdv
            let p := p.adv
            let (r2, p) := exprP fuel p
            let res := res.registerFrom r2
            if res.hasError then (res, p)
            else
              match r2.node with
              | some _expr => ifCasesLoop fuel (cases ++ [(condition, _expr)]) res p
              | none => (res, p)
        | none => (res, p)
    else if p.curToken.matchesKV TT_KEYWORD "else" then
      let res := res.regAdv
      let p := p.adv
      let (r1, p) := exprP fuel p
      let res := res.registerFrom r1
      if res.hasError then (res, p)
      else
        match r1.node with
        | some elseCase => (res.success (mkIfNode cases (some elseCase)), p)
        | none => (res, p)
    else (res.success (mkIfNode cases none), p)

/-- `Parser.forExpr()`. -/
def forExprP : Nat → ParserState → ParseRusult × ParserState
  | 0, p => (outOfFuelP, p)
  | fuel + 1, p =>
    let res := prInit
    if ¬ p.curToken.matchesKV TT_KEYWORD "for" then
      (res.failure (invalidSyntaxError p.curToken.posStart p.curToken.posEnd
        "Expected \x27for\x27"), p)
    else
      let res := res.regAdv
      let p := p.adv
      if p.curToken.type ≠ TT_IDENTIFIER then
        (res.failure (invalidSyntaxError p.curToken.posStart p.curToken.posEnd
          "Expected identifier"), p)
      else
        let varNameToken := p.curToken
        let res := res.regAdv
        let p := p.adv
        if p.curToken.type ≠ TT_EQ then
          (res.failure (invalidSyntaxError p.curToken.posStart p.curToken.posEnd
            "Expected \x27=\x27"), p)
        else
          let res := res.regAdv
          let p := p.adv
          let (r1, p) := exprP fuel p
          let res := res.registerFrom r1
          if res.hasError then (res, p)
          else
            match r1.node with
            | some startNode =>
              if ¬ p.curToken.matchesKV TT_KEYWORD "to" then
                (res.failure (invalidSyntaxError p.curToken.posStart
                  p.curToken.posEnd "Expected \x27to\x27"), p)
              else
                let res := res.regAdv
                let p := p.adv
                let (r2, p) := exprP fuel p
                let res := res.registerFrom r2
                if res.hasError then (res, p)
                else
                  match r2.node with
                  | some endNode => forStepThen fuel varNameToken startNode endNode res p
                  | none => (res, p)
            | none => (res, p)

/-- The optional `step` clause plus `then` body of `Parser.forExpr()`. -/
def forStepThen : Nat → Token → Node → Node → ParseRusult → ParserState →
    ParseRusult × ParserState
  | 0, _, _, _, _, p => (outOfFuelP, p)
  | fuel + 1, varNameToken, startNode, endNode, res, p =>
    if p.curToken.matchesKV TT_KEYWORD "step" then
      let res := res.regAdv
      let p := p.adv
      let (r1, p) := exprP fuel p
      let res := res.registerFrom r1
      if res.hasError then (res, p)
      else
        match r1.node with
        | some stepNode =>
          forBody fuel varNameToken startNode endNode (some stepNode) res p
        | none => (res, p)
    else forBody fuel varNameToken startNode endNode none res p

/-- The `then` body of `Parser.forExpr()`. -/
def forBody : Nat → Token → Node → Node → Option Node → ParseRusult →
    ParserState → ParseRusult × ParserState
  | 0, _, _, _, _, _, p => (outOfFuelP, p)
  | fuel + 1, varNameToken, startNode, endNode, stepNode, res, p =>
    if ¬ p.curToken.matchesKV TT_KEYWORD "then" then
      (res.failure (invalidSyntaxError p.curToken.posStart p.curToken.posEnd
        "Expected \x27then\x27"), p)
    else
      let res := res.regAdv
      let p := p.adv
      let (r1, p) := exprP fuel p
      let res := res.registerFrom r1
      if res.hasError then (res, p)
      else
        match r1.node with
        | some bodyNode =>
          (res.success (mkForNode varNameToken startNode endNode stepNode bodyNode), p)
        | none => (res, p)

/-- `Parser.whileExpr()`. -/
def whileExprP : Nat → ParserState → ParseRusult × ParserState
  | 0, p => (outOfFuelP, p)
  | fuel + 1, p =>
    let res := prInit
    if ¬ p.curToken.matchesKV TT_KEYWORD "while" then
      (res.failure (invalidSyntaxError p.curToken.posStart p.curToken.posEnd
        "Expected \x27while\x27"), p)
    else
      let res := res.regAdv
      let p := p.adv
      let (r1, p) := exprP fuel p
      let res := res.registerFrom r1
      if res.hasError then (res, p)
      else
        match r1.node with
        | some conditionNode =>
          if ¬ p.curToken.matchesKV TT_KEYWORD "then" then
            (res.failure (invalidSyntaxError p.curToken.posStart
              p.curToken.posEnd "Expected \x27then\x27"), p)
          else
            let res := res.regAdv
            let p := p.adv
            let (r2, p) := exprP fuel p
            let res := res.registerFrom r2
            if res.hasError then (res, p)
            else
              match r2.node with
              | some bodyNode =>
                (res.success (mkWhileNode conditionNode bodyNode), p)
              | none => (res, p)
        | none => (res, p)

/-- `Parser.funDef()`: keyword, optional name, `(`. -/
def funDefP : Nat → ParserState → ParseRusult × ParserState
  | 0, p => (outOfFuelP, p)
  | fuel + 1, p =>
    let res := prInit
    if ¬ p.curToken.matchesKV TT_KEYWORD "fun" then
      (res.failure (invalidSyntaxError p.curToken.posStart p.curToken.posEnd
        "Expected \x27fun\x27"), p)
    else
      let res := res.regAdv
      let p := p.adv
      if p.curToken.type = TT_IDENTIFIER then
        let varNameToken := p.curToken
        let res := res.regAdv
        let p := p.adv
        if p.curToken.type ≠ TT_LPAREN then
          (res.failure (invalidSyntaxError p.curToken.posStart p.curToken.posEnd
            "Expected \x27(\x27"), p)
        else funDefArgs fuel (some varNameToken) res p
      else
        if p.curToken.type ≠ TT_LPAREN then
          (res.failure (invalidSyntaxError p.curToken.posStart p.curToken.posEnd
            "Expected identifier or \x27(\x27"), p)
        else funDefArgs fuel none res p

/-- The parameter list of `Parser.funDef()` (after the `(` check; the first
step below is the source's `advance()` past the `(`). -/
def funDefArgs : Nat → Option Token → ParseRusult → ParserState →
    ParseRusult × ParserState
  | 0, _, _, p => (outOfFuelP, p)
  | fuel + 1, varNameToken, res, p =>
    let res := res.regAdv
    let p := p.adv
    if p.curToken.type = TT_IDENTIFIER then
      let first := p.curToken
      let res := res.regAdv
      let p := p.adv
      funDefArgsLoop fuel varNameToken [first] res p
    else
      if p.curToken.type ≠ TT_RPAREN then
        (res.failure (invalidSyntaxError p.curToken.posStart p.curToken.posEnd
          "Expected identifier or \x27)\x27"), p)
      else funDefArrow fuel varNameToken [] res p

/-- The `while (COMMA)` parameter loop of `Parser.funDef()`. -/
def funDefArgsLoop : Nat → Option Token → List Token → ParseRusult →
    ParserState → ParseRusult × ParserState
  | 0, _, _, _, p => (outOfFuelP, p)
  | fuel + 1, varNameToken, argNameTokens, res, p =>
    if p.curToken.type = TT_COMMA then
      let res := res.regAdv
      let p := p.adv
      if p.curToken.type ≠ TT_IDENTIFIER then
        (res.failure (invalidSyntaxError p.curToken.posStart p.curToken.posEnd
          "Expected identifier"), p)
      else
        let t := p.curToken
        let res := res.regAdv
        let p := p.adv
        funDefArgsLoop fuel varNameToken (argNameTokens ++ [t]) res p
    else if p.curToken.type ≠ TT_RPAREN then
      (res.failure (invalidSyntaxError p.curToken.posStart p.curToken.posEnd
        "Expected \x27,\x27 or \x27)\x27"), p)
    else funDefArrow fuel varNameToken argNameTokens res p

/-- The `)` consumption, `->` check and body of `Parser.funDef()`. -/
def funDefArrow : Nat → Option Token → List Token → ParseRusult →
    ParserState → ParseRusult × ParserState
  | 0, _, _, _, p => (outOfFuelP, p)
  | fuel + 1, varNameToken, argNameTokens, res, p =>
    let res := res.regAdv
    let p := p.adv
    if p.curToken.type ≠ TT_ARROW then
      (res.failure (invalidSyntaxError p.curToken.posStart p.curToken.posEnd
        "Expected \x27->\x27"), p)
    else
      let res := res.regAdv
      let p := p.adv
      let (r1, p) := exprP fuel p
      let res := res.registerFrom r1
      if res.hasError then (res, p)
      else
        match r1.node with
        | some nodeToReturn =>
          (res.success (mkFuncDefNode varNameToken argNameTokens nodeToReturn), p)
        | none => (res, p)

end

/-- `Parser.parse()`: run `expr`, then require the stream to be at EOF. -/
def parseP (fuel : Nat) (p : ParserState) : ParseRusult × ParserState :=
  let (res, p) := exprP fuel p
  if ¬ res.hasError ∧ p.curToken.type ≠ TT_EOF then
    (res.failure (invalidSyntaxError p.curToken.posStart p.curToken.posEnd
      "Expected \x27+\x27, \x27-\x27, \x27*\x27, \x27/\x27, \x27^\x27, \x27==\x27, \x27!=\x27, \x27<\x27, \x27>\x27, <=\x27, \x27>=\x27, \x27&&\x27 or \x27||\x27"), p)
  else (res, p)

/-!  ## Runtime values, contexts and the store

`NumberValue` has two subclasses (`BoolValue`, `NullValue`) that only differ
in `copy`/`toString`/`toNumber`; the `NumKind` tag records which class a
number value belongs to.  `ListValue` holds a JavaScript array by reference:
here an address into `Store.arrays`.  `SymbolTable`s are mutable objects with
a `parent` reference: addresses into `Store.tables`.  `BasicContext` is an
immutable record (never mutated after construction), so it is a plain
inductive holding its symbol table's address. -/

inductive NumKind where
  | plain
  | bool
  | null
deriving Repr, DecidableEq

/-- `BasicContext {contextName, parent?, parentEntryPos?, symbolTable?}`. -/
inductive BasicContext where
  | mk (contextName : String) (parent : Option BasicContext)
      (parentEntryPos : Option Position) (symbolTable : Nat)
deriving Repr

def BasicContext.contextName : BasicContext → String
  | .mk n _ _ _ => n

def BasicContext.parent : BasicContext → Option BasicContext
  | .mk _ p _ _ => p

def BasicContext.symbolTable : BasicContext → Nat
  | .mk _ _ _ t => t

/-- The mutable diagnostic fields of every `BasicValue`:
`posStart`, `posEnd` (set by `setPos`/`setPosWithNode`) and `context`
(set by `setContext`). -/
structure Tag where
  posStart : Option Position
  posEnd : Option Position
  ctx : Option BasicContext
deriving Repr

def noTag : Tag := { posStart := none, posEnd := none, ctx := none }

/-- Which `BuiltInFunction` static method a builtin value dispatches to. -/
inductive BuiltinKind where
  | isListB
  | isStringB
  | isNumberB
  | isIntB
  | isFloatB
  | isFunctionB
  | appendB
deriving Repr, DecidableEq

/-- The `BasicValue` class hierarchy: `NumberValue` (with its `BoolValue` and
`NullValue` subclasses), `StringValue`, `ListValue` (an array address),
`FunctionValue` and `BuiltInFunction`. -/
inductive Value where
  | num (value : ℚ) (isInt : Bool) (kind : NumKind) (tag : Tag)
  | str (value : String) (tag : Tag)
  | list (addr : Nat) (tag : Tag)
  | fn (name : String) (bodyNode : Node) (argNames : List String) (tag : Tag)
  | builtin (name : String) (argNames : List String) (kind : BuiltinKind)
      (tag : Tag)
deriving Repr

def Value.tag : Value → Tag
  | .num _ _ _ t => t
  | .str _ t => t
  | .list _ t => t
  | .fn _ _ _ t => t
  | .builtin _ _ _ t => t

def Value.withTag : Value → Tag → Value
  | .num v i k _, t => .num v i k t
  | .str s _, t => .str s t
  | .list a _, t => .list a t
  | .fn n b as _, t => .fn n b as t
  | .builtin n as k _, t => .builtin n as k t

/-- `setPos(posStart, posEnd)`. -/
def Value.setPos (v : Value) (ps pe : Option Position) : Value :=
  v.withTag { v.tag with posStart := ps, posEnd := pe }

/-- `setPosWithNode(node)`. -/
def Value.setPosWithNode (v : Value) (n : Node) : Value :=
  v.setPos n.posStart n.posEnd

/-- `setContext(context)`. -/
def Value.setCtx (v : Value) (c : Option BasicContext) : Value :=
  v.withTag { v.tag with ctx := c }

/-- `toNumber()` per class: `NumberValue` returns `value` (`BoolValue`
`isTrue ? 1 : 0`, `NullValue` `0`); `StringValue` `length ? 1 : 0`;
`ListValue` and functions `1`. -/
def Value.toNumber : Value → ℚ
  | .num v _ k _ =>
    match k with
    | .plain => v
    | .bool => if v ≠ 0 then 1 else 0
    | .null => 0
  | .str s _ => if s.length ≠ 0 then 1 else 0
  | .list _ _ => 1
  | .fn _ _ _ _ => 1
  | .builtin _ _ _ _ => 1

/-- `isTrue()` per class. -/
def Value.isTrue : Value → Bool
  | .num v _ _ _ => v ≠ 0
  | .str s _ => s.length ≠ 0
  | .list _ _ => true
  | .fn _ _ _ _ => true
  | .builtin _ _ _ _ => true

/-- `instanceof NumberValue`. -/
def Value.isNum : Value → Bool
  | .num _ _ _ _ => true
  | _ => false

/-- `.isInt` of a `NumberValue` (false for non-numbers, only read after an
`instanceof` check in the source). -/
def Value.isIntV : Value → Bool
  | .num _ i _ _ => i
  | _ => false

/-- `new BoolValue(b)` (no position, context as given). -/
def boolV (b : Bool) (c : Option BasicContext) : Value :=
  .num (if b then 1 else 0) true .bool { posStart := none, posEnd := none, ctx := c }

/-- `new NullValue()`. -/
def nullV : Value := .num 0 true .null noTag

/-- `copy()` per class: `NumberValue`, `StringValue`, `ListValue` (same
array!), `FunctionValue` and `BuiltInFunction` keep position and context;
`BoolValue.copy`/`NullValue.copy` only keep the context (no `setPos`). -/
def Value.copy : Value → Value
  | .num v i k t =>
    match k with
    | .plain => .num v i .plain t
    | .bool => .num v i .bool { posStart := none, posEnd := none, ctx := t.ctx }
    | .null => .num 0 true .null { posStart := none, posEnd := none, ctx := t.ctx }
  | .str s t => .str s t
  | .list a t => .list a t
  | .fn n b as t => .fn n b as t
  | .builtin n as k t => .builtin n as k t

/-- Errors out of a `run`: lex/syntax `BasicError`s, `RTError`s (whether
returned through `RTResult.failure` or thrown — both abort the run with the
error, so one constructor covers both channels), and host-level JavaScript
crashes (`TypeError` on `null`/`undefined`, `NaN` production, stack/fuel
exhaustion) that no claim exercises. -/
inductive RunError where
  | basic (e : BasicError)
  | rt (posStart posEnd : Option Position) (message : String)
      (context : Option BasicContext)
  | host (message : String)
deriving Repr

/-- `illegalOperation()`: `RTError(this.posStart, this.posEnd,
"Illegal operation", this.context)`. -/
def illegalOp (v : Value) : RunError :=
  .rt v.tag.posStart v.tag.posEnd "Illegal operation" v.tag.ctx

/-- The heap: list-element arrays and symbol-table frames, by address. -/
structure STFrame where
  symbols : List (String × Value)
  parent : Option Nat
deriving Repr

structure Store where
  arrays : List (List Value)
  tables : List STFrame
deriving Repr

def assocSet (l : List (String × Value)) (k : String) (v : Value) :
    List (String × Value) :=
  match l with
  | [] => [(k, v)]
  | (k', v') :: rest =>
    if k' = k then (k', v) :: rest else (k', v') :: assocSet rest k v

def assocGet (l : List (String × Value)) (k : String) : Option Value :=
  match l with
  | [] => none
  | (k', v') :: rest => if k' = k then some v' else assocGet rest k

/-- `SymbolTable.get(name)`: local table first, then the parent chain.  The
recursion is bounded by the number of tables (every chain is acyclic since a
table's parent always exists before it). -/
def symGetFuel (st : Store) : Nat → Nat → String → Option Value
  | 0, _, _ => none
  | fuel + 1, addr, name =>
    match st.tables.get? addr with
    | none => none
    | some fr =>
      match assocGet fr.symbols name with
      | some v => some v
      | none =>
        match fr.parent with
        | some p => symGetFuel st fuel p name
        | none => none

def symGet (st : Store) (addr : Nat) (name : String) : Option Value :=
  symGetFuel st (st.tables.length + 1) addr name

/-- `SymbolTable.set(name, value)`: always writes the local table (an
invalid address — unreachable — is a no-op). -/
def symSet (st : Store) (addr : Nat) (name : String) (v : Value) : Store :=
  match st.tables.get? addr with
  | some fr =>
    { st with
        tables := st.tables.set addr
          { fr with symbols := assocSet fr.symbols name v } }
  | none => st

/-- `new SymbolTable(parent)`: allocate a fresh empty frame. -/
def allocTable (st : Store) (parent : Option Nat) : Nat × Store :=
  (st.tables.length,
   { st with tables := st.tables ++ [{ symbols := [], parent := parent }] })

/-- Allocate a fresh element array (a `new ListValue(elements)` with a brand
new backing array, as in `visitListNode`/loop results). -/
def allocArray (st : Store) (elems : List Value) : Nat × Store :=
  (st.arrays.length, { st with arrays := st.arrays ++ [elems] })

def arrGet (st : Store) (addr : Nat) : Option (List Value) :=
  st.arrays.get? addr

def arrSet (st : Store) (addr : Nat) (l : List Value) : Store :=
  { st with arrays := st.arrays.set addr l }

/-!  ## Value operator methods

`visitBinOpNode` dispatches on the operator token to the matching method of
the left operand's class; the methods below case on that class.  Only the
`ListValue` methods touch the store, but all share one signature.  JavaScript
`Number.prototype.toString` (used in string+number concatenation) is modelled
on exact decimals; the claims never reach the fallback. -/

/-- Truncation toward zero (JavaScript `ToIntegerOrInfinity` on a finite
number). -/
def ratTruncZ (q : ℚ) : ℤ := q.num / (q.den : ℤ)

/-- `Number.prototype.toString()` for the exactly-representable values this
development evaluates: integers print plainly, finite decimals with a point. -/
def jsNumToString (q : ℚ) : String :=
  if q.den = 1 then toString q.num
  else
    match (List.range 64).find? (fun k => (q * (10 : ℚ) ^ (k + 1)).den = 1) with
    | some k =>
      let digits := k + 1
      let scaled : ℤ := (q * (10 : ℚ) ^ digits).num
      let sign := if scaled < 0 then "-" else ""
      let m := scaled.natAbs
      let ip := m / 10 ^ digits
      let fp := m % 10 ^ digits
      let fpStr := toString fp
      let fpPad := String.mk (List.replicate (digits - fpStr.length) '0') ++ fpStr
      sign ++ toString ip ++ "." ++ fpPad
    | none => "<number>"

/-- The value of a decimal digit run (used by the number-parsing models). -/
def digitsVal (ds : List Char) : ℕ :=
  ds.foldl (fun acc c => acc * 10 + (c.toNat - '0'.toNat)) 0

/-- JavaScript string-to-number coercion (used by `<`/`>`-style comparisons
between a string and a number): trimmed-empty is `0`; an optional sign,
digits and an optional fraction parse exactly; anything else is NaN
(`none`), which makes every comparison false. -/
def jsStringToNumber (s : String) : Option ℚ :=
  let t := s.trim.toList
  if t = [] then some 0
  else
    let (sign, t) : ℚ × List Char :=
      match t with
      | '-' :: r => (-1, r)
      | '+' :: r => (1, r)
      | r => (1, r)
    let ipart := t.takeWhile Char.isDigit
    let rest := t.dropWhile Char.isDigit
    match rest with
    | [] => if ipart = [] then none else some (sign * digitsVal ipart)
    | '.' :: fpart =>
      if fpart.all Char.isDigit ∧ ¬(ipart = [] ∧ fpart = []) then
        some (sign * ((digitsVal ipart : ℚ) +
          (digitsVal fpart : ℚ) / (10 : ℚ) ^ fpart.length))
      else none
    | _ => none

/-- `parseInt(s, 10)` restricted to the lexer's INT token texts: the leading
digit run, `none` (NaN) when there is none. -/
def jsParseInt (s : String) : Option ℚ :=
  let ds := s.toList.takeWhile Char.isDigit
  if ds = [] then none
  else some ((digitsVal ds : ℕ) : ℚ)

/-- `parseFloat(s)` restricted to the lexer's FLOAT token texts (digits with
one dot): `none` (NaN) when no digit is present (the text `"."`). -/
def jsParseFloat (s : String) : Option ℚ :=
  let t := s.toList
  let ipart := t.takeWhile Char.isDigit
  let rest := t.dropWhile Char.isDigit
  match rest with
  | [] => if ipart = [] then none else some (digitsVal ipart : ℚ)
  | c :: fpart =>
    if c = '.' then
      let fds := fpart.takeWhile Char.isDigit
      if ipart = [] ∧ fds = [] then none
      else
        some ((digitsVal ipart : ℚ) + (digitsVal fds : ℚ) / (10 : ℚ) ^ fds.length)
    else if ipart = [] then none else some (digitsVal ipart : ℚ)

/-- `add` (`+`).  `NumberValue.add`: sum with `isInt` conjunction;
`StringValue.add`: concatenation with a string or a stringified number;
`ListValue.add`: `copy()` (same backing array!) then `push` — the push is
visible through the original list as well; functions: illegal. -/
def addV (st : Store) (l r : Value) : Except RunError (Value × Store) :=
  match l with
  | .num _ i _ t =>
    .ok (.num (l.toNumber + r.toNumber) (i && r.isNum && r.isIntV) .plain
      { noTag with ctx := t.ctx }, st)
  | .str s t =>
    match r with
    | .str s2 _ => .ok (.str (s ++ s2) { noTag with ctx := t.ctx }, st)
    | .num v _ _ _ => .ok (.str (s ++ jsNumToString v) { noTag with ctx := t.ctx }, st)
    | _ => .error (illegalOp l)
  | .list a t =>
    match arrGet st a with
    | some elems => .ok (.list a t, arrSet st a (elems ++ [r]))
    | none => .error (.host "invalid array address")
  | .fn _ _ _ _ => .error (illegalOp l)
  | .builtin _ _ _ _ => .error (illegalOp l)

/-- `sub` (`-`).  `StringValue.sub` throws
`RTError(other.posEnd, other.posEnd, "string - string")`;
`ListValue.sub` is `copy()` then `splice(index, 1)` (JavaScript clamping). -/
def subV (st : Store) (l r : Value) : Except RunError (Value × Store) :=
  match l with
  | .num _ i _ t =>
    .ok (.num (l.toNumber - r.toNumber) (i && r.isNum && r.isIntV) .plain
      { noTag with ctx := t.ctx }, st)
  | .str _ t =>
    .error (.rt r.tag.posEnd r.tag.posEnd "string - string" t.ctx)
  | .list a t =>
    match r with
    | .num v _ _ _ =>
      match arrGet st a with
      | some elems =>
        let len : ℤ := elems.length
        let start0 := ratTruncZ v
        let start : ℕ :=
          (if start0 < 0 then max (len + start0) 0 else min start0 len).toNat
        .ok (.list a t, arrSet st a (elems.take start ++ elems.drop (start + 1)))
      | none => .error (.host "invalid array address")
    | _ => .error (illegalOp l)
  | .fn _ _ _ _ => .error (illegalOp l)
  | .builtin _ _ _ _ => .error (illegalOp l)

/-- `mul` (`*`).  `StringValue.mul` is `value.repeat(other.value)` (only for
a number operand; a negative count is a host `RangeError`);
`ListValue.mul` is illegal. -/
def mulV (st : Store) (l r : Value) : Except RunError (Value × Store) :=
  match l with
  | .num _ i _ t =>
    .ok (.num (l.toNumber * r.toNumber) (i && r.isNum && r.isIntV) .plain
      { noTag with ctx := t.ctx }, st)
  | .str s t =>
    match r with
    | .num v _ _ _ =>
      let n := ratTruncZ v
      if n < 0 then .error (.host "RangeError: Invalid count value")
      else
        .ok (.str (String.join (List.replicate n.toNat s))
          { noTag with ctx := t.ctx }, st)
    | _ => .error (illegalOp l)
  | .list _ _ => .error (illegalOp l)
  | .fn _ _ _ _ => .error (illegalOp l)
  | .builtin _ _ _ _ => .error (illegalOp l)

/-- `div` (`/`).  `NumberValue.div` throws
`RTError(other.posStart, other.posEnd, "Division by zero", this.context)`
when `other.toNumber() === 0`, and otherwise divides, keeping the same
`isInt` conjunction as the other arithmetic methods.  `StringValue.div`
throws `string / string`; `ListValue.div` indexes `elements[other.value]`
(an out-of-range or fractional index is the JavaScript `undefined` — a host
outcome here); functions: illegal. -/
def divV (st : Store) (l r : Value) : Except RunError (Value × Store) :=
  match l with
  | .num _ i _ t =>
    if r.toNumber = 0 then
      .error (.rt r.tag.posStart r.tag.posEnd "Division by zero" t.ctx)
    else
      .ok (.num (l.toNumber / r.toNumber) (i && r.isNum && r.isIntV) .plain
        { noTag with ctx := t.ctx }, st)
  | .str _ t =>
    .error (.rt r.tag.posEnd r.tag.posEnd "string / string" t.ctx)
  | .list a _ =>
    match r with
    | .num v _ _ _ =>
      match arrGet st a with
      | some elems =>
        if h : v.den = 1 ∧ 0 ≤ v.num ∧ v.num < elems.length then
          .ok (elems.get ⟨v.num.toNat, by omega⟩, st)
        else .error (.host "undefined list element")
      | none => .error (.host "invalid array address")
    | _ => .error (illegalOp l)
  | .fn _ _ _ _ => .error (illegalOp l)
  | .builtin _ _ _ _ => .error (illegalOp l)

/-- `pow` (`**`).  `NumberValue.pow` is JavaScript `**`; modelled exactly for
integer exponents (with `0 ** n` for negative `n` a host outcome, since
JavaScript yields `Infinity`); a fractional exponent is irrational in general
and is likewise a host outcome.  No claim evaluates `**`. -/
def powV (st : Store) (l r : Value) : Except RunError (Value × Store) :=
  match l with
  | .num _ i _ t =>
    let b := l.toNumber
    let e := r.toNumber
    if e.den = 1 then
      if b = 0 ∧ e.num < 0 then .error (.host "Infinity")
      else
        .ok (.num (b ^ e.num) (i && r.isNum && r.isIntV) .plain
          { noTag with ctx := t.ctx }, st)
    else .error (.host "irrational power")
  | .str _ t =>
    .error (.rt r.tag.posEnd r.tag.posEnd "string ** string" t.ctx)
  | .list _ _ => .error (illegalOp l)
  | .fn _ _ _ _ => .error (illegalOp l)
  | .builtin _ _ _ _ => .error (illegalOp l)

/-- The shared shape of the `NumberValue` comparison methods:
`new BoolValue(this.toNumber() <op> other.toNumber()).setContext(this.context)`. -/
def numCmp (l r : Value) (t : Tag) (op : ℚ → ℚ → Bool) : Value :=
  boolV (op l.toNumber r.toNumber) t.ctx

/-- The shared shape of the `StringValue` comparison methods: the raw
JavaScript comparison `this.value <op> other.value` against a string or a
number operand, anything else illegal. -/
def strCmpAllowed : Value → Bool
  | .num _ _ _ _ => true
  | .str _ _ => true
  | _ => false

/-- `cmpEq` (`==`). -/
def cmpEqV (st : Store) (l r : Value) : Except RunError (Value × Store) :=
  match l with
  | .num _ _ _ t => .ok (numCmp l r t (fun a b => a = b), st)
  | .str s t =>
    if strCmpAllowed r then
      .ok (boolV (match r with
        | .str s2 _ => s = s2
        | _ => false) t.ctx, st)
    else .error (illegalOp l)
  | .list _ _ => .error (illegalOp l)
  | _ => .error (illegalOp l)

/-- `cmpNe` (`!=`). -/
def cmpNeV (st : Store) (l r : Value) : Except RunError (Value × Store) :=
  match l with
  | .num _ _ _ t => .ok (numCmp l r t (fun a b => a ≠ b), st)
  | .str s t =>
    if strCmpAllowed r then
      .ok (boolV (match r with
        | .str s2 _ => s ≠ s2
        | _ => true) t.ctx, st)
    else .error (illegalOp l)
  | .list _ _ => .error (illegalOp l)
  | _ => .error (illegalOp l)

/-- The mixed-type `<`-style comparison of `StringValue`: string/string is
lexicographic; string/number coerces the string (NaN ⇒ false). -/
def strCmpBin (s : String) (r : Value) (op : ℚ → ℚ → Bool)
    (sop : String → String → Bool) : Bool :=
  match r with
  | .str s2 _ => sop s s2
  | .num v _ _ _ =>
    match jsStringToNumber s with
    | some q => op q v
    | none => false
  | _ => false

/-- `cmpLt` (`<`). -/
def cmpLtV (st : Store) (l r : Value) : Except RunError (Value × Store) :=
  match l with
  | .num _ _ _ t => .ok (numCmp l r t (fun a b => a < b), st)
  | .str s t =>
    if strCmpAllowed r then
      .ok (boolV (strCmpBin s r (fun a b => a < b) (fun a b => a < b)) t.ctx, st)
    else .error (illegalOp l)
  | .list _ _ => .error (illegalOp l)
  | _ => .error (illegalOp l)

/-- `cmpGt` (`>`). -/
def cmpGtV (st : Store) (l r : Value) : Except RunError (Value × Store) :=
  match l with
  | .num _ _ _ t => .ok (numCmp l r t (fun a b => b < a), st)
  | .str s t =>
    if strCmpAllowed r then
      .ok (boolV (strCmpBin s r (fun a b => b < a) (fun a b => b < a)) t.ctx, st)
    else .error (illegalOp l)
  | .list _ _ => .error (illegalOp l)
  | _ => .error (illegalOp l)

/-- `cmpLte` (`<=`). -/
def cmpLteV (st : Store) (l r : Value) : Except RunError (Value × Store) :=
  match l with
  | .num _ _ _ t => .ok (numCmp l r t (fun a b => a ≤ b), st)
  | .str s t =>
    if strCmpAllowed r then
      .ok (boolV (strCmpBin s r (fun a b => a ≤ b) (fun a b => ¬ b < a)) t.ctx, st)
    else .error (illegalOp l)
  | .list _ _ => .error (illegalOp l)
  | _ => .error (illegalOp l)

/-- `cmpGte` (`>=`).  `ListValue.cmpGte` always returns `BoolValue.true`;
`BaseFunction.cmpGte` throws the source's preserved oddity
`RTError(other.posStart, other.posEnd,
"Uncaught SyntaxError: Unexpected token '>='", this.context)`. -/
def cmpGteV (st : Store) (l r : Value) : Except RunError (Value × Store) :=
  match l with
  | .num _ _ _ t => .ok (numCmp l r t (fun a b => b ≤ a), st)
  | .str s t =>
    if strCmpAllowed r then
      .ok (boolV (strCmpBin s r (fun a b => b ≤ a) (fun a b => ¬ a < b)) t.ctx, st)
    else .error (illegalOp l)
  | .list _ t => .ok (boolV true t.ctx, st)
  | .fn _ _ _ t =>
    .error (.rt r.tag.posStart r.tag.posEnd
      "Uncaught SyntaxError: Unexpected token \x27>=\x27" t.ctx)
  | .builtin _ _ _ t =>
    .error (.rt r.tag.posStart r.tag.posEnd
      "Uncaught SyntaxError: Unexpected token \x27>=\x27" t.ctx)

/-- `and` (`&&`).  `NumberValue`/`ListValue`/functions:
`!this.isTrue() ? this : other` (the operand object itself);
`StringValue.and` rebuilds a value of the deciding operand's type. -/
def andV (st : Store) (l r : Value) : Except RunError (Value × Store) :=
  match l with
  | .num _ _ _ _ => .ok (if !l.isTrue then l else r, st)
  | .str s t =>
    match r with
    | .str s2 _ =>
      .ok (.str (if l.isTrue then s2 else s) { noTag with ctx := t.ctx }, st)
    | .num v i _ _ =>
      if !l.isTrue then .ok (.str s { noTag with ctx := t.ctx }, st)
      else .ok (.num v i .plain { noTag with ctx := t.ctx }, st)
    | _ => .error (illegalOp l)
  | .list _ _ => .ok (if !l.isTrue then l else r, st)
  | .fn _ _ _ _ => .ok (if !l.isTrue then l else r, st)
  | .builtin _ _ _ _ => .ok (if !l.isTrue then l else r, st)

/-- `or` (`||`): symmetric form of `and`. -/
def orV (st : Store) (l r : Value) : Except RunError (Value × Store) :=
  match l with
  | .num _ _ _ _ => .ok (if l.isTrue then l else r, st)
  | .str s t =>
    match r with
    | .str s2 _ =>
      .ok (.str (if l.isTrue then s else s2) { noTag with ctx := t.ctx }, st)
    | .num v i _ _ =>
      if l.isTrue then .ok (.str s { noTag with ctx := t.ctx }, st)
      else .ok (.num v i .plain { noTag with ctx := t.ctx }, st)
    | _ => .error (illegalOp l)
  | .list _ _ => .ok (if l.isTrue then l else r, st)
  | .fn _ _ _ _ => .ok (if l.isTrue then l else r, st)
  | .builtin _ _ _ _ => .ok (if l.isTrue then l else r, st)

/-- `not()` (unary `!`).  `NumberValue`: `new BoolValue(!value)`;
`StringValue`: `new BoolValue(!value)` (empty string is falsy);
`ListValue`: `BoolValue.false`; functions: `new NumberValue(0, true)`. -/
def notV (l : Value) : Value :=
  match l with
  | .num v _ _ t => boolV (v = 0) t.ctx
  | .str s t => boolV (s.length = 0) t.ctx
  | .list _ t => boolV false t.ctx
  | .fn _ _ _ t => .num 0 true .plain { noTag with ctx := t.ctx }
  | .builtin _ _ _ t => .num 0 true .plain { noTag with ctx := t.ctx }

/-- The `switch (node.token.type)` of `Interpreter.visitBinOpNode`.  The
`try`/`catch` around `left.div(right)` converts a thrown `RTError` into an
`RTResult` failure; both channels abort evaluation with the same error, so
the dispatch is uniform here.  A fall-through (no matching operator) leaves
`result = null` and crashes on `result.setPosWithNode` — a host outcome. -/
def binOpApply (st : Store) (token : Token) (l r : Value) :
    Except RunError (Value × Store) :=
  if token.type = TT_PLUS then addV st l r
  else if token.type = TT_MINUS then subV st l r
  else if token.type = TT_MUL then mulV st l r
  else if token.type = TT_DIV then divV st l r
  else if token.type = TT_POW then powV st l r
  else if token.type = TT_EE then cmpEqV st l r
  else if token.type = TT_NE then cmpNeV st l r
  else if token.type = TT_LT then cmpLtV st l r
  else if token.type = TT_GT then cmpGtV st l r
  else if token.type = TT_LTE then cmpLteV st l r
  else if token.type = TT_GTE then cmpGteV st l r
  else if token.matchesKV TT_KEYWORD "&&" then andV st l r
  else if token.matchesKV TT_KEYWORD "||" then orV st l r
  else .error (.host "TypeError: null result")

/-!  ## Function invocation protocol and builtins -/

/-- Dereference an evaluation result before the source uses it as an object:
a JavaScript `null` there raises a host `TypeError`.  (Used where the source
would crash: calling/copying a null callee or return value, testing a null
condition's truthiness, pushing a null loop-body result, a null operand of an
operator method, and storing a null assignment value — no claim reaches any
of these.) -/
def getV (v : Option Value) : Except RunError Value :=
  match v with
  | some v => .ok v
  | none => .error (.host "TypeError: null value")

/-- `BaseFunction.getFunContext()`:
`new BasicContext(this.name, this.context, this.posStart,
new SymbolTable(this.context.symbolTable))` — the new frame's parent is the
symbol table of the context *currently stored on the function value*. -/
def getFunContext (name : String) (tag : Tag) (st : Store) :
    Except RunError (BasicContext × Store) :=
  match tag.ctx with
  | none => .error (.host "TypeError: null context")
  | some c =>
    let r := allocTable st (some c.symbolTable)
    .ok (BasicContext.mk name (some c) tag.posStart r.1, r.2)

/-- `BaseFunction.checkArgs(argNames, args)`: strict arity —
`RTError` naming the two counts and the function when they differ. -/
def checkArgs (name : String) (tag : Tag) (argNames : List String)
    (args : List Value) : Option RunError :=
  if args.length > argNames.length then
    some (.rt tag.posStart tag.posEnd
      (toString args.length ++ " - " ++ toString argNames.length ++
        " too many args passed into \x27" ++ name ++ "\x27") tag.ctx)
  else if args.length < argNames.length then
    some (.rt tag.posStart tag.posEnd
      (toString args.length ++ " - " ++ toString argNames.length ++
        " too few args passed into \x27" ++ name ++ "\x27") tag.ctx)
  else none

/-- `BaseFunction.populateArgs`: bind each argument value (re-tagged with the
function context) to the positionally matching parameter name in the new
frame. -/
def populateArgs (argNames : List String) (args : List Value)
    (funContext : BasicContext) (st : Store) : Store :=
  (List.zip argNames args).foldl
    (fun st p => symSet st funContext.symbolTable p.1 (p.2.setCtx (some funContext)))
    st

/-- `BuiltInFunction.isList` method body. -/
def builtinIsList (funCtx : BasicContext) (st : Store) :
    Except RunError (Option Value × Store) :=
  let arg1 := symGet st funCtx.symbolTable "value"
  .ok (some (boolV (match arg1 with | some (.list _ _) => true | _ => false) none), st)

/-- `BuiltInFunction.isString` method body. -/
def builtinIsString (funCtx : BasicContext) (st : Store) :
    Except RunError (Option Value × Store) :=
  let arg1 := symGet st funCtx.symbolTable "value"
  .ok (some (boolV (match arg1 with | some (.str _ _) => true | _ => false) none), st)

/-- `BuiltInFunction.isNumber` method body (`instanceof NumberValue` also
covers `BoolValue` and `NullValue`). -/
def builtinIsNumber (funCtx : BasicContext) (st : Store) :
    Except RunError (Option Value × Store) :=
  let arg1 := symGet st funCtx.symbolTable "value"
  .ok (some (boolV (match arg1 with | some v => v.isNum | _ => false) none), st)

/-- `BuiltInFunction.isInt` method body:
`arg1 instanceof NumberValue && arg1.isInt`. -/
def builtinIsInt (funCtx : BasicContext) (st : Store) :
    Except RunError (Option Value × Store) :=
  let arg1 := symGet st funCtx.symbolTable "value"
  .ok (some (boolV (match arg1 with | some v => v.isNum && v.isIntV | _ => false) none), st)

/-- `BuiltInFunction.isFloat` method body. -/
def builtinIsFloat (funCtx : BasicContext) (st : Store) :
    Except RunError (Option Value × Store) :=
  let arg1 := symGet st funCtx.symbolTable "value"
  .ok (some (boolV (match arg1 with | some v => v.isNum && !v.isIntV | _ => false) none), st)

/-- `BuiltInFunction.isFunction` method body (`instanceof FunctionValue`
only — builtins are not `FunctionValue`s). -/
def builtinIsFunction (funCtx : BasicContext) (st : Store) :
    Except RunError (Option Value × Store) :=
  let arg1 := symGet st funCtx.symbolTable "value"
  .ok (some (boolV (match arg1 with | some (.fn _ _ _ _) => true | _ => false) none), st)

/-- `BuiltInFunction.append` method body: requires a list first argument,
`push`es the second onto the list's backing array in place, and returns
`new NumberValue(arg1.elements.length, true)` — the *new length*, not a
list. -/
def builtinAppend (selfTag : Tag) (funCtx : BasicContext) (st : Store) :
    Except RunError (Option Value × Store) :=
  let arg1 := symGet st funCtx.symbolTable "list"
  let arg2 := symGet st funCtx.symbolTable "value"
  match arg1 with
  | some (.list a _) =>
    match arrGet st a with
    | some elems =>
      match arg2 with
      | some v =>
        let st := arrSet st a (elems ++ [v])
        .ok (some (.num (elems.length + 1) true .plain noTag), st)
      | none => .error (.host "TypeError: null value")
    | none => .error (.host "invalid array address")
  | _ =>
    .error (.rt selfTag.posStart selfTag.posEnd "First argument must be list"
      (some funCtx))

/-- Dispatch a `BuiltInFunction`'s native `method`. -/
def builtinMethod (kind : BuiltinKind) (selfTag : Tag) (funCtx : BasicContext)
    (st : Store) : Except RunError (Option Value × Store) :=
  match kind with
  | .isListB => builtinIsList funCtx st
  | .isStringB => builtinIsString funCtx st
  | .isNumberB => builtinIsNumber funCtx st
  | .isIntB => builtinIsInt funCtx st
  | .isFloatB => builtinIsFloat funCtx st
  | .isFunctionB => builtinIsFunction funCtx st
  | .appendB => builtinAppend selfTag funCtx st

/-- Read the numeric payload the `for` loop uses
(`(value as NumberValue).value` and `.isInt`); a non-number there is a host
outcome (the JavaScript code would read unrelated fields). -/
def asNumQ (v : Value) : Except RunError ℚ :=
  match v with
  | .num q _ _ _ => .ok q
  | _ => .error (.host "TypeError: not a number")

/-!  ## Interpreter

One mutually recursive block on an explicit fuel, decremented on every
nested call; the loop bodies (`if` case list, `for`/`while` iterations, call
arguments, list elements) consume fuel per step. -/

/-- `Interpreter.visitNumberNode`: `parseInt`/`parseFloat` of the token text,
`isInt` iff the token is an INT token; tagged with context and node span.
(A NaN parse — only the literal `"."` — is a host outcome here.) -/
def visitNumberNode (token : Token) (ps pe : Option Position)
    (ctx : BasicContext) (st : Store) : Except RunError (Option Value × Store) :=
  let isInt := token.type = TT_INT
  let s := token.value.getD "undefined"
  match (if isInt then jsParseInt s else jsParseFloat s) with
  | some q => .ok (some (.num q isInt .plain { posStart := ps, posEnd := pe, ctx := some ctx }), st)
  | none => .error (.host "NaN")

/-- `Interpreter.visitStringNode`. -/
def visitStringNode (token : Token) (ps pe : Option Position)
    (ctx : BasicContext) (st : Store) : Except RunError (Option Value × Store) :=
  .ok (some (.str (token.value.getD "undefined")
    { posStart := ps, posEnd := pe, ctx := some ctx }), st)

/-- `Interpreter.visitVarAccessNode`: chain lookup; undefined name is an
`RTError`; a found value is `copy()`d and re-tagged with the access node's
span and the current context. -/
def visitVarAccessNode (token : Token) (ps pe : Option Position)
    (ctx : BasicContext) (st : Store) : Except RunError (Option Value × Store) :=
  let varName := token.value.getD "undefined"
  match symGet st ctx.symbolTable varName with
  | none =>
    .error (.rt ps pe ("\"" ++ varName ++ "\" is not defined") (some ctx))
  | some v =>
    .ok (some (((v.copy).setPos ps pe).setCtx (some ctx)), st)

/-- `Interpreter.visitFuncDefNode`: build the `FunctionValue` (capturing the
current context and the node span), bind it when named, return it. -/
def visitFuncDefNode (varNameToken : Option Token) (argNameTokens : List Token)
    (bodyNode : Node) (ps pe : Option Position) (ctx : BasicContext)
    (st : Store) : Except RunError (Option Value × Store) :=
  let funcName : Option String := varNameToken.bind (fun t => t.value)
  let argNames := argNameTokens.map (fun t => t.value.getD "undefined")
  let fname := match funcName with
    | some n => if n = "" then "<anonymous>" else n
    | none => "<anonymous>"
  let funcValue : Value := .fn fname bodyNode argNames
    { posStart := ps, posEnd := pe, ctx := some ctx }
  let st := match varNameToken with
    | some _ => symSet st ctx.symbolTable (funcName.getD "undefined") funcValue
    | none => st
  .ok (some funcValue, st)

mutual

/-- `Interpreter.visit`: closed dispatch over the node variants. -/
def visit : Nat → Node → BasicContext → Store →
    Except RunError (Option Value × Store)
  | 0, _, _, _ => .error (.host "out of fuel")
  | fuel + 1, node, ctx, st =>
    match node with
    | .numberNode t ps pe => visitNumberNode t ps pe ctx st
    | .stringNode t ps pe => visitStringNode t ps pe ctx st
    | .varAccessNode t ps pe => visitVarAccessNode t ps pe ctx st
    | .varAssignNode t valueNode _ _ => do
      -- `visitVarAssignNode`: evaluate, store (not copy) into the *local*
      -- frame, return the stored value.
      let (v?, st) ← visit fuel valueNode ctx st
      let v ← getV v?
      let st := symSet st ctx.symbolTable (t.value.getD "undefined") v
      .ok (some v, st)
    | .listNode elementNodes ps pe => do
      -- `visitListNode`: evaluate elements in order into a fresh array.
      let (elems, st) ← evalNodeList fuel elementNodes ctx st
      let r := allocArray st elems
      .ok (some (.list r.1 { posStart := ps, posEnd := pe, ctx := some ctx }), r.2)
    | .unaryOpNode token inner ps pe => do
      -- `visitUnaryOpNode`: `-` is multiplication by `NumberValue(-1, true)`,
      -- `!` is `not()`; anything else leaves the value unchanged.
      let (v?, st) ← visit fuel inner ctx st
      let v ← getV v?
      let (result, st) ←
        if token.type = TT_MINUS then mulV st v (.num (-1) true .plain noTag)
        else if token.matchesKV TT_KEYWORD "!" then .ok (notV v, st)
        else .ok (v, st)
      .ok (some (result.setPos ps pe), st)
    | .binOpNode leftNode token rightNode ps pe => do
      -- `visitBinOpNode`: left, then right, then dispatch on the operator;
      -- the result is re-tagged with the BinOp node's span.
      let (lv?, st) ← visit fuel leftNode ctx st
      let (rv?, st) ← visit fuel rightNode ctx st
      let lv ← getV lv?
      let rv ← getV rv?
      let (result, st) ← binOpApply st token lv rv
      .ok (some (result.setPos ps pe), st)
    | .ifNode cases elseCase _ _ => ifLoop fuel cases elseCase ctx st
    | .forNode varNameToken startNode endNode stepNode bodyNode ps pe => do
      -- `visitForNode`: evaluate start, end and the optional step (default
      -- `NumberValue(1, true)`); the loop direction comes from the step's
      -- sign; the induction variable is written into the *current*
      -- environment before each body evaluation.
      let (sv?, st) ← visit fuel startNode ctx st
      let startValue ← getV sv?
      let (ev?, st) ← visit fuel endNode ctx st
      let endValue ← getV ev?
      let (stepValue, st) ←
        match stepNode with
        | some sn => do
          let (pv?, st) ← visit fuel sn ctx st
          let pv ← getV pv?
          pure (pv, st)
        | none => pure ((Value.num 1 true .plain noTag), st)
      let i0 ← asNumQ startValue
      let endQ ← asNumQ endValue
      let stepQ ← asNumQ stepValue
      forLoop fuel (varNameToken.value.getD "undefined") i0 endQ stepQ
        (startValue.isIntV && stepValue.isIntV) bodyNode [] ps pe ctx st
    | .whileNode conditionNode bodyNode ps pe =>
      whileLoop fuel conditionNode bodyNode [] ps pe ctx st
    | .funcDefNode v argNameTokens bodyNode ps pe =>
      visitFuncDefNode v argNameTokens bodyNode ps pe ctx st
    | .callNode nodeToCall argNodes ps pe => do
      -- `visitCallNode`: evaluate the callee, `copy()` it and re-tag it with
      -- the call node's span *and the calling context*; evaluate the
      -- arguments left to right; `exceute`; `copy()` and re-tag the result.
      let (cv?, st) ← visit fuel nodeToCall ctx st
      let valueToCall0 ← getV cv?
      let valueToCall := ((valueToCall0.copy).setPos ps pe).setCtx (some ctx)
      let (args, st) ← evalNodeList fuel argNodes ctx st
      let (rv?, st) ←
        match valueToCall with
        | .fn name bodyNode argNames tag =>
          exceuteFn fuel name bodyNode argNames tag args st
        | .builtin name argNames kind tag =>
          exceuteBuiltin fuel name argNames kind tag args st
        | _ => .error (.host "TypeError: not a function")
      let returnValue ← getV rv?
      .ok (some (((returnValue.copy).setPos ps pe).setCtx (some ctx)), st)

/-- The case loop of `Interpreter.visitIfNode`: first truthy condition wins;
else-branch or `success(null)` otherwise. -/
def ifLoop : Nat → List (Node × Node) → Option Node → BasicContext → Store →
    Except RunError (Option Value × Store)
  | 0, _, _, _, _ => .error (.host "out of fuel")
  | fuel + 1, [], elseCase, ctx, st =>
    match elseCase with
    | some e => visit fuel e ctx st
    | none => .ok (none, st)
  | fuel + 1, (condition, branch) :: rest, elseCase, ctx, st => do
    let (cv?, st) ← visit fuel condition ctx st
    let cv ← getV cv?
    if cv.isTrue then visit fuel branch ctx st
    else ifLoop fuel rest elseCase ctx st

/-- The `while (condition())` loop of `Interpreter.visitForNode`:
non-negative step iterates while `i < end`, negative step while `i > end`;
each iteration stores `new NumberValue(i, startIsInt && stepIsInt)` under the
loop variable, then advances `i`, then evaluates the body and accumulates its
value; the result is a fresh `ListValue` tagged with the node span. -/
def forLoop : Nat → String → ℚ → ℚ → ℚ → Bool → Node → List Value →
    Option Position → Option Position → BasicContext → Store →
    Except RunError (Option Value × Store)
  | 0, _, _, _, _, _, _, _, _, _, _, _ => .error (.host "out of fuel")
  | fuel + 1, varName, i, endQ, stepQ, isIntFlag, bodyNode, elements, ps, pe,
      ctx, st =>
    if (if 0 ≤ stepQ then i < endQ else endQ < i) then do
      let st := symSet st ctx.symbolTable varName (.num i isIntFlag .plain noTag)
      let (bv?, st) ← visit fuel bodyNode ctx st
      let bv ← getV bv?
      forLoop fuel varName (i + stepQ) endQ stepQ isIntFlag bodyNode
        (elements ++ [bv]) ps pe ctx st
    else
      let r := allocArray st elements
      .ok (some (.list r.1 { posStart := ps, posEnd := pe, ctx := some ctx }), r.2)

/-- The loop of `Interpreter.visitWhileNode`: accumulate each iteration's
body value into the resulting list. -/
def whileLoop : Nat → Node → Node → List Value → Option Position →
    Option Position → BasicContext → Store →
    Except RunError (Option Value × Store)
  | 0, _, _, _, _, _, _, _ => .error (.host "out of fuel")
  | fuel + 1, conditionNode, bodyNode, elements, ps, pe, ctx, st => do
    let (cv?, st) ← visit fuel conditionNode ctx st
    let cv ← getV cv?
    if ¬ cv.isTrue then
      let r := allocArray st elements
      .ok (some (.list r.1 { posStart := ps, posEnd := pe, ctx := some ctx }), r.2)
    else do
      let (bv?, st) ← visit fuel bodyNode ctx st
      let bv ← getV bv?
      whileLoop fuel conditionNode bodyNode (elements ++ [bv]) ps pe ctx st

/-- Left-to-right evaluation of a node list (list literals and call
arguments). -/
def evalNodeList : Nat → List Node → BasicContext → Store →
    Except RunError (List Value × Store)
  | 0, _, _, _ => .error (.host "out of fuel")
  | _ + 1, [], _, st => .ok ([], st)
  | fuel + 1, n :: rest, ctx, st => do
    let (v?, st) ← visit fuel n ctx st
    let v ← getV v?
    let (vs, st) ← evalNodeList fuel rest ctx st
    .ok (v :: vs, st)

/-- `FunctionValue.exceute(args)`: build the per-call context (a fresh frame
whose parent is the symbol table of the context stored on the value),
`checkAndPopulateArgs`, then evaluate the body in the new context. -/
def exceuteFn : Nat → String → Node → List String → Tag → List Value →
    Store → Except RunError (Option Value × Store)
  | 0, _, _, _, _, _, _ => .error (.host "out of fuel")
  | fuel + 1, name, bodyNode, argNames, tag, args, st => do
    let (funContext, st) ← getFunContext name tag st
    match checkArgs name tag argNames args with
    | some e => .error e
    | none =>
      let st := populateArgs argNames args funContext st
      visit fuel bodyNode funContext st

/-- `BuiltInFunction.exceute(args)`: identical protocol, native method. -/
def exceuteBuiltin : Nat → String → List String → BuiltinKind → Tag →
    List Value → Store → Except RunError (Option Value × Store)
  | 0, _, _, _, _, _, _ => .error (.host "out of fuel")
  | _ + 1, name, argNames, kind, tag, args, st => do
    let (funContext, st) ← getFunContext name tag st
    match checkArgs name tag argNames args with
    | some e => .error e
    | none =>
      let st := populateArgs argNames args funContext st
      builtinMethod kind tag funContext st

end

/-!  ## Global environment and `run` -/

/-- The `globalSymbolTable` bindings installed at module load, in insertion
order. -/
def globalBindings : List (String × Value) :=
  [("null", nullV),
   ("true", boolV true none),
   ("false", boolV false none),
   ("isList", .builtin "isList" ["value"] .isListB noTag),
   ("isString", .builtin "isString" ["value"] .isStringB noTag),
   ("isNumber", .builtin "isNumber" ["value"] .isNumberB noTag),
   ("isInt", .builtin "isInt" ["value"] .isIntB noTag),
   ("isFloat", .builtin "isFloat" ["value"] .isFloatB noTag),
   ("isFunction", .builtin "isFunction" ["value"] .isFunctionB noTag),
   ("append", .builtin "append" ["list", "value"] .appendB noTag)]

/-- The process-wide store at start: the global symbol table at address `0`,
no arrays yet.  It persists across successive `run` calls (REPL sessions
thread the store through). -/
def globalStore : Store :=
  { arrays := [], tables := [{ symbols := globalBindings, parent := none }] }

/-- Convert the lexer's token array for the parser; an `undefined` entry
(produced by a lone `&`/`|`) crashes the parser's first property access with
a `TypeError`. -/
def allSomeTokens : List (Option Token) → Option (List Token)
  | [] => some []
  | none :: _ => none
  | some t :: rest => (allSomeTokens rest).map (fun ts => t :: ts)

/-- `run(fileName, text)` from `src/basic.ts`: lex, parse, then interpret in
the `<program>` context over the global symbol table.  The store is passed
and returned explicitly (the source keeps it in module state); `fuel` bounds
the recursion as described above. -/
def run (fuel : Nat) (fileName text : String) (st : Store) :
    Except RunError (Option Value × Store) :=
  match makeTokens fileName text with
  | .error e => .error (.basic e)
  | .ok toks =>
    match allSomeTokens toks with
    | none => .error (.host "TypeError: undefined token")
    | some tokens =>
      let r := parseP fuel { tokens := tokens, index := 0 }
      match r.1.error with
      | some e => .error (.basic e)
      | none =>
        match r.1.node with
        | none => .error (.host "TypeError: null node")
        | some node =>
          visit fuel node (BasicContext.mk "<program>" none none 0) st

/-!  ## Properties of the claims -/

/-- The `<program>` context every `run` evaluates in. -/
def programCtx : BasicContext := .mk "<program>" none none 0

/-- Project a value to its numeric payload and `isInt` flag. -/
def numView (v : Value) : ℚ × Bool := (v.toNumber, v.isIntV)

/-- Project a value to its list address, when it is a list. -/
def listAddrView : Value → Option Nat
  | .list a _ => some a
  | _ => none

theorem checkArgs_eq_none (name : String) (tag : Tag) (argNames : List String)
    (args : List Value) (h : args.length = argNames.length) :
    checkArgs name tag argNames args = none := by
  simp [checkArgs, h]

/-- Claim C4: a numeric division `a / b` fails with the division-by-zero
`RTError` carrying the right operand's span exactly when the right operand's
numeric value is zero, and otherwise yields the quotient; concretely, both
`1/0` and `1/(2-2)` raise `Division by zero` spanning the divisor. -/
theorem C4_division_by_zero :
    (∀ (st : Store) (a b : ℚ) (i j : Bool) (t1 t2 : Tag),
        b = 0 →
        divV st (.num a i .plain t1) (.num b j .plain t2) =
          .error (.rt t2.posStart t2.posEnd "Division by zero" t1.ctx)) ∧
    (∀ (st : Store) (a b : ℚ) (i j : Bool) (t1 t2 : Tag),
        b ≠ 0 →
        divV st (.num a i .plain t1) (.num b j .plain t2) =
          .ok (.num (a / b) (i && j) .plain { noTag with ctx := t1.ctx }, st)) ∧
    run 99 "<stdin>" "1/0" globalStore =
      .error (.rt (some ⟨2, 0, 2, "<stdin>", "1/0"⟩)
        (some ⟨3, 0, 3, "<stdin>", "1/0"⟩)
        "Division by zero" (some programCtx)) ∧
    run 99 "<stdin>" "1/(2-2)" globalStore =
      .error (.rt (some ⟨3, 0, 3, "<stdin>", "1/(2-2)"⟩)
        (some ⟨6, 0, 6, "<stdin>", "1/(2-2)"⟩)
        "Division by zero" (some programCtx)) := by
  refine ⟨?_, ?_, by with_unfolding_all rfl, by with_unfolding_all rfl⟩
  · intro st a b i j t1 t2 hb
    subst hb
    simp [divV, Value.toNumber, Value.tag]
  · intro st a b i j t1 t2 hb
    simp [divV, Value.toNumber, Value.isNum, Value.isIntV, hb]

theorem C4_division_by_zero_witness :
    divV globalStore (.num 1 true .plain noTag) (.num 0 true .plain noTag) =
      .error (.rt none none "Division by zero" none) ∧
    divV globalStore (.num 1 true .plain noTag) (.num 2 true .plain noTag) =
      .ok (.num (1 / 2) (true && true) .plain { noTag with ctx := none }, globalStore) :=
  ⟨C4_division_by_zero.1 globalStore 1 0 true true noTag noTag rfl,
   C4_division_by_zero.2.1 globalStore 1 2 true true noTag noTag (by norm_num)⟩

/-- Claim C10: dividing two integer-tagged numbers keeps `isInt = true` even
when the quotient is not an integer; `1/2` evaluates to the number `1/2`
tagged as an integer, so `isInt` reports true and `isFloat` false on it. -/
theorem C10_int_division_keeps_int_flag :
    (∀ (st : Store) (a b : ℚ) (t1 t2 : Tag), b ≠ 0 →
        divV st (.num a true .plain t1) (.num b true .plain t2) =
          .ok (.num (a / b) true .plain { noTag with ctx := t1.ctx }, st)) ∧
    ((1 : ℚ) / 2).den ≠ 1 ∧
    (run 99 "<stdin>" "1/2" globalStore).map (fun r => r.1.map numView) =
      .ok (some (1 / 2, true)) ∧
    (run 99 "<stdin>" "isInt(1/2)" globalStore).map
      (fun r => r.1.map Value.isTrue) = .ok (some true) ∧
    (run 99 "<stdin>" "isFloat(1/2)" globalStore).map
      (fun r => r.1.map Value.isTrue) = .ok (some false) := by
  refine ⟨?_, by norm_num, by with_unfolding_all rfl, by with_unfolding_all rfl,
    by with_unfolding_all rfl⟩
  intro st a b t1 t2 hb
  simp [divV, Value.toNumber, Value.isNum, Value.isIntV, hb]

theorem C10_int_division_keeps_int_flag_witness :
    divV globalStore (.num 1 true .plain noTag) (.num 2 true .plain noTag) =
      .ok (.num (1 / 2) true .plain { noTag with ctx := none }, globalStore) :=
  C10_int_division_keeps_int_flag.1 globalStore 1 2 noTag noTag (by norm_num)

/-- Claim C3 (counterexample): the claim says `L + v` leaves the original
list `L` unchanged, but after `var L = [1]` the evaluation of `L + 2`
mutates `L`'s backing array to `[1, 2]` (the `copy()` in `ListValue.add`
shares the array). -/
theorem C3_counterexample :
    ((run 99 "<stdin>" "var L = [1]" globalStore).bind (fun r1 =>
      run 99 "<stdin>" "L + 2" r1.2)).map
        (fun r => (arrGet r.2 0).map (fun l => l.map Value.toNumber)) =
      .ok (some [1, 2]) ∧
    (run 99 "<stdin>" "var L = [1]" globalStore).map
        (fun r => (arrGet r.2 0).map (fun l => l.map Value.toNumber)) =
      .ok (some [1]) :=
  ⟨by with_unfolding_all rfl, by with_unfolding_all rfl⟩

/-- Claim C3 (amended): `L + v` returns a list value whose elements are `L`'s
followed by `v`, but that value shares `L`'s backing array (`copy()` keeps
the same address), so `L` itself is mutated to contain `v` as well; the
concrete `var L = [1]; L + 2` run shows the result and `L` at the same
address with elements `[1, 2]`. -/
theorem C3_list_add_shares_array :
    (∀ (st : Store) (a : Nat) (t : Tag) (v : Value) (elems : List Value),
        arrGet st a = some elems →
        addV st (.list a t) v = .ok (.list a t, arrSet st a (elems ++ [v]))) ∧
    (∀ (a : Nat) (t : Tag), Value.copy (.list a t) = .list a t) ∧
    ((run 99 "<stdin>" "var L = [1]" globalStore).bind (fun r1 =>
      run 99 "<stdin>" "L + 2" r1.2)).map
        (fun r => (r.1.map listAddrView,
          (symGet r.2 0 "L").map listAddrView,
          (arrGet r.2 0).map (fun l => l.map Value.toNumber))) =
      .ok (some (some 0), some (some 0), some [1, 2]) := by
  refine ⟨?_, fun a t => rfl, by with_unfolding_all rfl⟩
  intro st a t v elems h
  simp [addV, h]

theorem C3_list_add_shares_array_witness :
    addV { arrays := [[]], tables := globalStore.tables } (.list 0 noTag)
        (.num 7 true .plain noTag) =
      .ok (.list 0 noTag, arrSet { arrays := [[]], tables := globalStore.tables } 0
        ([] ++ [.num 7 true .plain noTag])) :=
  C3_list_add_shares_array.1 { arrays := [[]], tables := globalStore.tables } 0
    noTag (.num 7 true .plain noTag) [] rfl

/-- Claim C9 (counterexample): `append([1], 2)` does mutate the list (its
array becomes `[1, 2]`), but the call's result is the integer number `2`
(the new length), not a list as the claim states. -/
theorem C9_counterexample :
    (run 99 "<stdin>" "append([1], 2)" globalStore).map
      (fun r => (r.1.map (fun v => match v with
        | .num q i _ _ => some (q, i)
        | _ => none),
        r.1.map listAddrView,
        r.2.arrays.map (fun l => l.map Value.toNumber))) =
    .ok (some (some (2, true)), some none, [[1, 2]]) := by with_unfolding_all rfl

/-- Indexing a one-element concatenation at the old length. -/
theorem list_get?_concat_length (l : List α) (a : α) :
    (l ++ [a]).get? l.length = some a := by
  induction l with
  | nil => rfl
  | cons x xs ih => simpa using ih

theorem list_set_concat (l : List α) (a b : α) :
    (l ++ [a]).set l.length b = l ++ [b] := by
  induction l with
  | nil => rfl
  | cons x xs ih => simp [ih]

theorem list_get?_set_self (l : List α) (n : Nat) (a : α) (h : n < l.length) :
    (l.set n a).get? n = some a := by
  induction l generalizing n with
  | nil => simp at h
  | cons x xs ih =>
    cases n with
    | zero => rfl
    | succ m => simpa using ih m (by simpa using h)

theorem list_getElem?_concat_length (l : List α) (a : α) :
    (l ++ [a])[l.length]? = some a := by
  induction l with
  | nil => rfl
  | cons x xs ih => simpa using ih

/-- `SymbolTable.set` on the freshly appended frame. -/
theorem symSet_concat (T : List STFrame) (arrays : List (List Value))
    (fr : STFrame) (name : String) (v : Value) :
    symSet { arrays := arrays, tables := T ++ [fr] } T.length name v =
      { arrays := arrays,
        tables := T ++ [{ fr with symbols := assocSet fr.symbols name v }] } := by
  unfold symSet
  rw [list_get?_concat_length]
  simp [list_set_concat]

/-- The store produced by populating an `append` call frame: a fresh frame
holding the two parameters appended to the tables. -/
theorem append_populate_eq (c : BasicContext) (tag : Tag) (lv v : Value)
    (st : Store) :
    populateArgs ["list", "value"] [lv, v]
        (BasicContext.mk "append" (some c) tag.posStart st.tables.length)
        { st with tables := st.tables ++ [{ symbols := [], parent := some c.symbolTable }] } =
      { arrays := st.arrays,
        tables := st.tables ++ [{
          symbols := [("list",
            lv.setCtx (some (BasicContext.mk "append" (some c) tag.posStart
              st.tables.length))),
            ("value",
            v.setCtx (some (BasicContext.mk "append" (some c) tag.posStart
              st.tables.length)))],
          parent := some c.symbolTable }] } := by
  show symSet (symSet { arrays := st.arrays, tables := st.tables ++ [_] }
      (BasicContext.mk "append" (some c) tag.posStart st.tables.length).symbolTable
      "list" _)
    (BasicContext.mk "append" (some c) tag.posStart st.tables.length).symbolTable
      "value" _ = _
  simp only [BasicContext.symbolTable]
  rw [symSet_concat, symSet_concat]
  rfl

/-- Claim C9 (amended): `append(L, v)` pushes `v` onto `L`'s backing array in
place (one more element, `v` — re-tagged with the call frame's context —
last), and returns the integer number `new length`, not a list. -/
theorem C9_append_mutates_and_returns_length :
    ∀ (fuel : Nat) (tag : Tag) (c : BasicContext) (a : Nat) (t1 : Tag)
      (v : Value) (elems : List Value) (st : Store),
      tag.ctx = some c →
      arrGet st a = some elems →
      (exceuteBuiltin (fuel + 1) "append" ["list", "value"] .appendB tag
          [.list a t1, v] st).map (fun r => (r.1, arrGet r.2 a)) =
        .ok (some (.num (elems.length + 1) true .plain noTag),
          some (elems ++ [v.setCtx (some (BasicContext.mk "append" (some c)
            tag.posStart st.tables.length))])) := by
  intro fuel tag c a t1 v elems st hctx harr
  have ha : a < st.arrays.length := by
    by_contra hn
    unfold arrGet at harr
    rw [List.get?_eq_getElem?, List.getElem?_eq_none (by omega)] at harr
    cases harr
  have hlv : ∀ X, (Value.list a t1).setCtx X =
      Value.list a { posStart := t1.posStart, posEnd := t1.posEnd, ctx := X } :=
    fun X => rfl
  simp only [exceuteBuiltin, getFunContext, hctx, allocTable, checkArgs,
    List.length_cons, List.length_nil, Bind.bind, Except.bind]
  norm_num
  rw [append_populate_eq c tag (.list a t1) v st]
  simp only [builtinMethod, builtinAppend, symGet, symGetFuel,
    BasicContext.symbolTable, List.length_append, List.length_cons,
    List.length_nil, List.get?_eq_getElem?, list_getElem?_concat_length,
    assocGet, hlv, reduceIte, if_true, if_false, ite_true, ite_false,
    show ("list" = "value") = False from by decide,
    show ("value" = "list") = False from by decide]
  unfold arrGet at harr ⊢
  simp only [List.get?_eq_getElem?] at harr
  simp only [harr, arrSet, Except.map, List.get?_eq_getElem?,
    List.getElem?_set_self (by simpa using ha : a < st.arrays.length)]

/-- Claim C2 (counterexample): with `fun g() -> x` and `fun f(x) -> g()`
defined at top level, `f(5)` evaluates to `5`: the free `x` in `g`'s body is
resolved through `f`'s invocation frame.  Under the claim — the new frame's
parent being `g`'s captured defining environment, which is the global table
(address `0`, itself parentless) — the lookup of `x` would fail with an
undefined-variable error, since that chain never binds `x` (third
component).  The stored `g` indeed captured the global context (second
component). -/
theorem C2_counterexample :
    ((run 99 "<stdin>" "fun g() -> x" globalStore).bind (fun r1 =>
      (run 99 "<stdin>" "fun f(x) -> g()" r1.2).bind (fun r2 =>
        run 99 "<stdin>" "f(5)" r2.2))).map
      (fun r => (r.1.map numView,
        (symGet r.2 0 "g").map (fun v => match v with
          | .fn _ _ _ t => t.ctx.map BasicContext.symbolTable
          | _ => none),
        symGet r.2 0 "x")) =
      .ok (some (5, true), some (some 0), none) ∧
    (globalStore.tables.get? 0).map STFrame.parent = some none :=
  ⟨by with_unfolding_all rfl, rfl⟩

/-- Claim C2 (amended): a call with matching arity creates a fresh frame,
binds the parameter names positionally to the argument values and evaluates
the body in it — but the frame's parent is the symbol table of the context
*stored on the function value when `exceute` runs*, and `visitCallNode`
re-tags the copied callee with the **calling** context first, so the parent
is the call-site environment, not the captured defining one (the `g`/`f`
run above shows the observable difference). -/
theorem C2_call_frame_parent_is_callsite_env :
    (∀ (fuel : Nat) (name : String) (body : Node) (argNames : List String)
        (ps pe : Option Position) (c : BasicContext) (args : List Value)
        (st : Store),
        argNames.length = args.length →
        exceuteFn (fuel + 1) name body argNames ⟨ps, pe, some c⟩ args st =
          visit fuel body (BasicContext.mk name (some c) ps st.tables.length)
            (populateArgs argNames args
              (BasicContext.mk name (some c) ps st.tables.length)
              { st with tables := st.tables ++
                [{ symbols := [], parent := some c.symbolTable }] })) ∧
    ((run 99 "<stdin>" "fun g() -> x" globalStore).bind (fun r1 =>
      (run 99 "<stdin>" "fun f(x) -> g()" r1.2).bind (fun r2 =>
        run 99 "<stdin>" "f(5)" r2.2))).map (fun r => r.1.map numView) =
      .ok (some (5, true)) := by
  refine ⟨?_, by with_unfolding_all rfl⟩
  intro fuel name body argNames ps pe c args st h
  simp only [exceuteFn, getFunContext, allocTable, Bind.bind, Except.bind,
    checkArgs_eq_none name _ argNames args h.symm]

theorem C2_call_frame_parent_is_callsite_env_witness :
    exceuteFn 1 "g" (mkVarAccessNode (mkToken TT_IDENTIFIER (some "x") none none))
        [] ⟨none, none, some programCtx⟩ [] globalStore =
      visit 0 (mkVarAccessNode (mkToken TT_IDENTIFIER (some "x") none none))
        (BasicContext.mk "g" (some programCtx) none globalStore.tables.length)
        (populateArgs [] []
          (BasicContext.mk "g" (some programCtx) none globalStore.tables.length)
          { globalStore with tables := globalStore.tables ++
            [{ symbols := [], parent := some programCtx.symbolTable }] }) :=
  C2_call_frame_parent_is_callsite_env.1 0 "g"
    (mkVarAccessNode (mkToken TT_IDENTIFIER (some "x") none none)) []
    none none programCtx [] globalStore rfl

/-- Claim C1 (counterexample): after `for i = 0 to 3 then i` the loop
variable is bound to `2` (the counter value of the *last executed
iteration* — the store happens before the increment), not to `3` as the
claim states. -/
theorem C1_counterexample :
    (run 99 "<stdin>" "for i = 0 to 3 then i" globalStore).map
      (fun r => (symGet r.2 0 "i").map numView) = .ok (some (2, true)) ∧
    (2 : ℚ) ≠ 3 :=
  ⟨by with_unfolding_all rfl, by norm_num⟩

/-- Claim C1 (amended): the for-loop's direction comes from the step's sign —
a non-negative step iterates while `counter < end` (so with `end ≤ start`
the body never runs), a negative step while `counter > end`; each iteration
first stores the current counter under the loop variable in the current
environment, then advances the counter by the step, then evaluates the body
and accumulates its value.  `for i = 0 to 3 then i` evaluates the body
exactly 3 times with `i` = 0, 1, 2 — but leaves `i` bound to `2` (not `3`)
afterwards; `for i = 3 to 0 step -1 then i` iterates with `i` = 3, 2, 1 and
leaves `i` bound to `1`. -/
theorem C1_for_loop_direction :
    (run 99 "<stdin>" "for i = 0 to 3 then i" globalStore).map
      (fun r => ((match r.1 with
        | some (.list a _) => (arrGet r.2 a).map (fun l => l.map numView)
        | _ => none),
        (symGet r.2 0 "i").map numView)) =
      .ok (some [(0, true), (1, true), (2, true)], some (2, true)) ∧
    (run 99 "<stdin>" "for i = 3 to 0 step -1 then i" globalStore).map
      (fun r => ((match r.1 with
        | some (.list a _) => (arrGet r.2 a).map (fun l => l.map numView)
        | _ => none),
        (symGet r.2 0 "i").map numView)) =
      .ok (some [(3, true), (2, true), (1, true)], some (1, true)) ∧
    (∀ (fuel : Nat) (v : String) (i e s : ℚ) (flag : Bool) (body : Node)
        (ps pe : Option Position) (ctx : BasicContext) (st : Store),
        0 ≤ s → e ≤ i →
        forLoop (fuel + 1) v i e s flag body [] ps pe ctx st =
          .ok (some (.list st.arrays.length
            { posStart := ps, posEnd := pe, ctx := some ctx }),
            { st with arrays := st.arrays ++ [[]] })) ∧
    (∀ (fuel : Nat) (v : String) (i e s : ℚ) (flag : Bool) (body : Node)
        (ps pe : Option Position) (ctx : BasicContext) (st : Store),
        s < 0 → i ≤ e →
        forLoop (fuel + 1) v i e s flag body [] ps pe ctx st =
          .ok (some (.list st.arrays.length
            { posStart := ps, posEnd := pe, ctx := some ctx }),
            { st with arrays := st.arrays ++ [[]] })) ∧
    (∀ (fuel : Nat) (v : String) (i e s : ℚ) (flag : Bool) (body : Node)
        (elems : List Value) (ps pe : Option Position) (ctx : BasicContext)
        (st : Store),
        0 ≤ s → i < e →
        forLoop (fuel + 1) v i e s flag body elems ps pe ctx st = (do
          let st1 := symSet st ctx.symbolTable v (.num i flag .plain noTag)
          let (bv?, st2) ← visit fuel body ctx st1
          let bv ← getV bv?
          forLoop fuel v (i + s) e s flag body (elems ++ [bv]) ps pe ctx st2)) ∧
    (∀ (fuel : Nat) (v : String) (i e s : ℚ) (flag : Bool) (body : Node)
        (elems : List Value) (ps pe : Option Position) (ctx : BasicContext)
        (st : Store),
        s < 0 → e < i →
        forLoop (fuel + 1) v i e s flag body elems ps pe ctx st = (do
          let st1 := symSet st ctx.symbolTable v (.num i flag .plain noTag)
          let (bv?, st2) ← visit fuel body ctx st1
          let bv ← getV bv?
          forLoop fuel v (i + s) e s flag body (elems ++ [bv]) ps pe ctx st2)) := by
  refine ⟨by with_unfolding_all rfl, by with_unfolding_all rfl, ?_, ?_, ?_, ?_⟩
  · intro fuel v i e s flag body ps pe ctx st h0 he
    have hc : ¬ (if 0 ≤ s then i < e else e < i) := by
      rw [if_pos h0]
      exact not_lt.mpr he
    simp only [forLoop, if_neg hc, allocArray]
  · intro fuel v i e s flag body ps pe ctx st hs he
    have hc : ¬ (if 0 ≤ s then i < e else e < i) := by
      rw [if_neg (not_le.mpr hs)]
      exact not_lt.mpr he
    simp only [forLoop, if_neg hc, allocArray]
  · intro fuel v i e s flag body elems ps pe ctx st h0 hi
    have hc : (if 0 ≤ s then i < e else e < i) := by
      rw [if_pos h0]
      exact hi
    simp only [forLoop, if_pos hc]
  · intro fuel v i e s flag body elems ps pe ctx st hs hi
    have hc : (if 0 ≤ s then i < e else e < i) := by
      rw [if_neg (not_le.mpr hs)]
      exact hi
    simp only [forLoop, if_pos hc]

theorem C1_for_loop_direction_witness :
    forLoop 1 "i" 3 3 1 true
        (mkVarAccessNode (mkToken TT_IDENTIFIER (some "i") none none)) []
        none none programCtx globalStore =
      .ok (some (.list globalStore.arrays.length
        { posStart := none, posEnd := none, ctx := some programCtx }),
        { globalStore with arrays := globalStore.arrays ++ [[]] }) ∧
    forLoop 1 "i" 0 0 (-1) true
        (mkVarAccessNode (mkToken TT_IDENTIFIER (some "i") none none)) []
        none none programCtx globalStore =
      .ok (some (.list globalStore.arrays.length
        { posStart := none, posEnd := none, ctx := some programCtx }),
        { globalStore with arrays := globalStore.arrays ++ [[]] }) :=
  ⟨C1_for_loop_direction.2.2.1 0 "i" 3 3 1 true
      (mkVarAccessNode (mkToken TT_IDENTIFIER (some "i") none none))
      none none programCtx globalStore (by norm_num) le_rfl,
   C1_for_loop_direction.2.2.2.1 0 "i" 0 0 (-1) true
      (mkVarAccessNode (mkToken TT_IDENTIFIER (some "i") none none))
      none none programCtx globalStore (by norm_num) le_rfl⟩

/-!  ### Numeric literal lemmas (claim C8) -/

/-- A valid numeric literal: digits and dots only, at most one dot, at least
one digit. -/
def validNumLit (l : List Char) : Prop :=
  (∀ c ∈ l, isDigitDot c = true) ∧ l.count '.' ≤ 1 ∧ ∃ c ∈ l, c.isDigit = true

/-- The mathematical value of a numeric literal (its parsed numeric value):
the digits before the dot as an integer plus the digits after it scaled
down. -/
def literalValue (l : List Char) : ℚ :=
  match l.dropWhile Char.isDigit with
  | [] => (digitsVal l : ℚ)
  | _ :: fds =>
    (digitsVal (l.takeWhile Char.isDigit) : ℚ) +
      (digitsVal fds : ℚ) / (10 : ℚ) ^ fds.length

theorem string_foldl_push (l : List Char) (m : List Char) :
    l.foldl String.push (String.mk m) = String.mk (m ++ l) := by
  induction l generalizing m with
  | nil => simp
  | cons c r ih =>
    show List.foldl String.push (String.mk (m ++ [c])) r = String.mk (m ++ c :: r)
    rw [ih]
    simp

/-- `makeNumberLoop` consumes a leading digit run unconditionally. -/
theorem makeNumberLoop_digits (l1 : List Char) (h : ∀ c ∈ l1, c.isDigit = true) :
    ∀ (rest : List Char) (pos : Position) (acc : String) (d : Bool),
    makeNumberLoop (l1 ++ rest) pos acc d =
      makeNumberLoop rest (l1.foldl (fun p c => p.advance (some c)) pos)
        (l1.foldl String.push acc) d := by
  induction l1 with
  | nil => intro rest pos acc d; rfl
  | cons c r ih =>
    intro rest pos acc d
    have hc : c.isDigit = true := h c (by simp)
    have hcd : c ≠ '.' := by
      intro e
      subst e
      simp at hc
    simp only [List.cons_append, makeNumberLoop, isDigitDot, hc, Bool.true_or,
      if_true, if_neg hcd]
    exact ih (fun x hx => h x (by simp [hx])) rest _ _ d

/-- `makeNumber` on a pure digit run: one INT token holding the whole text.
-/
theorem makeNumber_intLit (l : List Char) (p0 : Position) (hne : l ≠ [])
    (h : ∀ c ∈ l, c.isDigit = true) :
    makeNumber { pos := p0, rest := l } =
      (mkToken TT_INT (some (String.mk l)) (some p0)
        (some (l.foldl (fun p c => p.advance (some c)) p0)),
       { pos := l.foldl (fun p c => p.advance (some c)) p0, rest := [] }) := by
  have h1 := makeNumberLoop_digits l h ([] : List Char) p0 "" false
  simp only [List.append_nil] at h1
  simp only [makeNumber, Position.copy, h1, makeNumberLoop]
  rw [show (l.foldl String.push "") = String.mk l from string_foldl_push l []]
  simp

/-- Claim C8's lexer fact, integer form: a pure digit run lexes to a single
INT token holding the whole text, followed by EOF. -/
theorem makeTokens_intLit (fn : String) (l : List Char) (hne : l ≠ [])
    (h : ∀ c ∈ l, c.isDigit = true) :
    makeTokens fn (String.mk l) =
      .ok [some (mkToken TT_INT (some (String.mk l))
          (some (lexInit fn (String.mk l)).pos)
          (some (l.foldl (fun p c => p.advance (some c))
            (lexInit fn (String.mk l)).pos))),
        some (mkToken TT_EOF none
          (some (l.foldl (fun p c => p.advance (some c))
            (lexInit fn (String.mk l)).pos)) none)] := by
  obtain ⟨c, r, rfl⟩ : ∃ c r, l = c :: r := by
    cases l with
    | nil => exact absurd rfl hne
    | cons c r => exact ⟨c, r, rfl⟩
  have hc : isDigitDot c = true := by
    simp [isDigitDot, h c (by simp)]
  show makeTokensLoop ((String.mk (c :: r)).length + 1) _ = _
  have hlen : (String.mk (c :: r)).length = r.length + 1 := by
    simp [String.length]
  rw [hlen, makeTokensLoop]
  have hrest : (lexInit fn (String.mk (c :: r))).rest = c :: r := rfl
  rw [hrest]
  simp only [hc, if_true, reduceIte]
  simp only [lexInit, String.toList]
  rw [makeNumber_intLit (c :: r) _ hne h]
  simp only [makeTokensLoop, Except.map]

/-- `makeNumber` on a digit run, a dot and another digit run: one FLOAT
token holding the whole text (the `isDot` flag set by the single dot). -/
theorem makeNumber_floatLit (l1 l2 : List Char) (p0 : Position)
    (h1 : ∀ c ∈ l1, c.isDigit = true) (h2 : ∀ c ∈ l2, c.isDigit = true) :
    makeNumber { pos := p0, rest := l1 ++ '.' :: l2 } =
      (mkToken TT_FLOAT (some (String.mk (l1 ++ '.' :: l2))) (some p0)
        (some ((l1 ++ '.' :: l2).foldl (fun p c => p.advance (some c)) p0)),
       { pos := (l1 ++ '.' :: l2).foldl (fun p c => p.advance (some c)) p0,
         rest := [] }) := by
  have hstep := makeNumberLoop_digits l1 h1 ('.' :: l2) p0 "" false
  have hdot : makeNumberLoop ('.' :: l2)
      (l1.foldl (fun p c => p.advance (some c)) p0) (l1.foldl String.push "")
      false =
      makeNumberLoop l2
        ((l1.foldl (fun p c => p.advance (some c)) p0).advance (some '.'))
        ((l1.foldl String.push "").push '.') true := by
    simp [makeNumberLoop, isDigitDot]
  have htail := makeNumberLoop_digits l2 h2 ([] : List Char)
    ((l1.foldl (fun p c => p.advance (some c)) p0).advance (some '.'))
    ((l1.foldl String.push "").push '.') true
  simp only [List.append_nil] at htail
  have hfull : makeNumberLoop (l1 ++ '.' :: l2) p0 "" false =
      ([], (l1 ++ '.' :: l2).foldl (fun p c => p.advance (some c)) p0,
        String.mk (l1 ++ '.' :: l2), true) := by
    rw [hstep, hdot, htail, makeNumberLoop]
    have e1 : List.foldl (fun p c => p.advance (some c))
        ((List.foldl (fun p c => p.advance (some c)) p0 l1).advance (some '.'))
        l2 = (l1 ++ '.' :: l2).foldl (fun p c => p.advance (some c)) p0 := by
      simp [List.foldl_append]
    have e2 : List.foldl String.push ((List.foldl String.push "" l1).push '.')
        l2 = String.mk (l1 ++ '.' :: l2) := by
      rw [show (List.foldl String.push "" l1) = String.mk l1 from
        string_foldl_push l1 []]
      rw [show (String.mk l1).push '.' = String.mk (l1 ++ ['.']) from rfl]
      rw [string_foldl_push l2 (l1 ++ ['.'])]
      simp
    rw [e1, e2]
  simp only [makeNumber, Position.copy, hfull]
  rfl

/-- Claim C8's lexer fact, float form. -/
theorem makeTokens_floatLit (fn : String) (l1 l2 : List Char)
    (h1 : ∀ c ∈ l1, c.isDigit = true) (h2 : ∀ c ∈ l2, c.isDigit = true) :
    makeTokens fn (String.mk (l1 ++ '.' :: l2)) =
      .ok [some (mkToken TT_FLOAT (some (String.mk (l1 ++ '.' :: l2)))
          (some (lexInit fn (String.mk (l1 ++ '.' :: l2))).pos)
          (some ((l1 ++ '.' :: l2).foldl (fun p c => p.advance (some c))
            (lexInit fn (String.mk (l1 ++ '.' :: l2))).pos))),
        some (mkToken TT_EOF none
          (some ((l1 ++ '.' :: l2).foldl (fun p c => p.advance (some c))
            (lexInit fn (String.mk (l1 ++ '.' :: l2))).pos)) none)] := by
  obtain ⟨c, r, hl⟩ : ∃ c r, l1 ++ '.' :: l2 = c :: r := by
    cases hl1 : l1 with
    | nil => exact ⟨'.', l2, by simp⟩
    | cons a as => exact ⟨a, as ++ '.' :: l2, by simp⟩
  have hc : isDigitDot c = true := by
    rcases hl1 : l1 with _ | ⟨a, as⟩
    · subst hl1
      simp at hl
      simp [← hl.1, isDigitDot]
    · subst hl1
      simp at hl
      simp [isDigitDot, ← hl.1, h1 a (by simp)]
  show makeTokensLoop ((String.mk (l1 ++ '.' :: l2)).length + 1) _ = _
  have hlen : (String.mk (l1 ++ '.' :: l2)).length = r.length + 1 := by
    simp [String.length, hl]
  rw [hlen, makeTokensLoop]
  have hrest : (lexInit fn (String.mk (l1 ++ '.' :: l2))).rest = c :: r := by
    simp [lexInit, String.toList, hl]
  rw [hrest]
  simp only [hc, if_true, reduceIte]
  simp only [lexInit, String.toList]
  rw [makeNumber_floatLit l1 l2 _ h1 h2]
  simp only [makeTokensLoop, Except.map]

/-- `parseInt` on a digit-run token text evaluates it in base 10. -/
theorem jsParseInt_digits (l : List Char) (hne : l ≠ [])
    (h : ∀ c ∈ l, c.isDigit = true) :
    jsParseInt (String.mk l) = some ((digitsVal l : ℕ) : ℚ) := by
  simp only [jsParseInt, String.toList]
  rw [List.takeWhile_eq_self_iff.mpr h]
  simp [hne]

theorem takeWhile_all_append (p : Char → Bool) (l1 : List Char)
    (h : ∀ c ∈ l1, p c = true) (c : Char) (l2 : List Char) (hc : p c = false) :
    (l1 ++ c :: l2).takeWhile p = l1 := by
  induction l1 with
  | nil => simp [List.takeWhile_cons, hc]
  | cons a as ih =>
    simp only [List.cons_append, List.takeWhile_cons, h a (by simp)]
    simp [ih (fun x hx => h x (by simp [hx]))]

theorem dropWhile_all_append (p : Char → Bool) (l1 : List Char)
    (h : ∀ c ∈ l1, p c = true) (c : Char) (l2 : List Char) (hc : p c = false) :
    (l1 ++ c :: l2).dropWhile p = c :: l2 := by
  induction l1 with
  | nil => simp [List.dropWhile_cons, hc]
  | cons a as ih =>
    simp only [List.cons_append, List.dropWhile_cons, h a (by simp)]
    simp [ih (fun x hx => h x (by simp [hx]))]

/-- `parseFloat` on a FLOAT token text evaluates the two digit runs. -/
theorem jsParseFloat_digits (l1 l2 : List Char)
    (h1 : ∀ c ∈ l1, c.isDigit = true) (h2 : ∀ c ∈ l2, c.isDigit = true)
    (hne : ¬ (l1 = [] ∧ l2 = [])) :
    jsParseFloat (String.mk (l1 ++ '.' :: l2)) =
      some ((digitsVal l1 : ℚ) + (digitsVal l2 : ℚ) / (10 : ℚ) ^ l2.length) := by
  have hdot : ('.' : Char).isDigit = false := by decide
  simp only [jsParseFloat]
  rw [show ({ data := l1 ++ '.' :: l2 } : String).toList = l1 ++ '.' :: l2 from rfl]
  rw [takeWhile_all_append _ l1 h1 '.' l2 hdot,
    dropWhile_all_append _ l1 h1 '.' l2 hdot]
  simp only [if_pos rfl, List.takeWhile_eq_self_iff.mpr h2, reduceIte]
  simp [hne]

/-- The first token of the dropped suffix failed the scan predicate. -/
theorem dropWhile_head_false (p : Char → Bool) (l : List Char) (d : Char)
    (t : List Char) (h : l.dropWhile p = d :: t) : p d = false := by
  induction l with
  | nil => simp at h
  | cons a as ih =>
    rw [List.dropWhile_cons] at h
    by_cases hpa : p a = true
    · exact ih (by simpa [hpa] using h)
    · simp [hpa] at h
      rw [← h.1]
      simpa using hpa

/-- `Parser.parse` on a single INT/FLOAT token followed by EOF: one
`NumberNode` holding that token, no error. -/
theorem parseP_single_numToken (ty : String) (hty : ty = TT_INT ∨ ty = TT_FLOAT)
    (s : String) (p0 p1 p2 : Option Position) :
    parseP 99 { tokens := [mkToken ty (some s) p0 p1,
        mkToken TT_EOF none p2 none], index := 0 } =
      ({ error := none,
         node := some (mkNumberNode (mkToken ty (some s) p0 p1)),
         advanceCount := 1 },
       { tokens := [mkToken ty (some s) p0 p1, mkToken TT_EOF none p2 none],
         index := 1 }) := by
  rcases hty with h | h <;> subst h <;> rfl

/-- Claim C8: numeric literals are lexed greedily from digits and dots with
at most one dot — in the `isDot` state another `.` terminates the scan
consuming nothing, and `1.2.3` lexes without error into the two FLOAT tokens
`1.2` and `.3`; and for every valid numeric literal, lexing, parsing and
evaluating the bare literal yields a plain Number equal to the literal's
parsed numeric value, tagged as integer iff the literal contains no dot. -/
theorem C8_numeric_literal_pipeline :
    (∀ (r : List Char) (pos : Position) (acc : String),
        makeNumberLoop ('.' :: r) pos acc true = ('.' :: r, pos, acc, true)) ∧
    makeTokens "<stdin>" "1.2.3" =
      .ok [some (Token.mk TT_FLOAT (some "1.2")
            (some ⟨0, 0, 0, "<stdin>", "1.2.3"⟩)
            (some ⟨3, 0, 3, "<stdin>", "1.2.3"⟩)),
          some (Token.mk TT_FLOAT (some ".3")
            (some ⟨3, 0, 3, "<stdin>", "1.2.3"⟩)
            (some ⟨5, 0, 5, "<stdin>", "1.2.3"⟩)),
          some (Token.mk TT_EOF none
            (some ⟨5, 0, 5, "<stdin>", "1.2.3"⟩)
            (some ⟨6, 0, 6, "<stdin>", "1.2.3"⟩))] ∧
    (∀ (fn : String) (l : List Char), validNumLit l →
        (run 99 fn (String.mk l) globalStore).map
          (fun r => r.1.map (fun v => match v with
            | .num q i k _ => some (q, i, k)
            | _ => none)) =
          .ok (some (some (literalValue l, decide ('.' ∉ l), NumKind.plain)))) := by
  refine ⟨fun r pos acc => rfl, rfl, ?_⟩
  intro fn l hv
  obtain ⟨hall, hcount, c0, hc0mem, hc0dig⟩ := hv
  by_cases hdot : ('.' : Char) ∈ l
  case neg =>
    have hdig : ∀ c ∈ l, c.isDigit = true := by
      intro c hc
      have hcd := hall c hc
      simp only [isDigitDot, Bool.or_eq_true] at hcd
      rcases hcd with h | h
      · exact h
      · have hceq : c = '.' := by simpa using h
        exact absurd (hceq ▸ hc) hdot
    have hne : l ≠ [] := by
      rintro rfl
      simp at hc0mem
    have hdw : l.dropWhile Char.isDigit = [] := by
      rw [List.dropWhile_eq_nil_iff]
      exact hdig
    simp only [run, makeTokens_intLit fn l hne hdig, allSomeTokens, Option.map,
      parseP_single_numToken TT_INT (Or.inl rfl), mkNumberNode]
    rw [show (99 : Nat) = 98 + 1 from rfl]
    simp only [visit, visitNumberNode, mkToken, Option.getD]
    rw [if_pos trivial, jsParseInt_digits l hne hdig]
    simp [Except.map, literalValue, hdw, hdot]
  case pos =>
    obtain ⟨d, l2, hrest⟩ : ∃ d l2, l.dropWhile Char.isDigit = d :: l2 := by
      cases hdw : l.dropWhile Char.isDigit with
      | nil =>
        rw [List.dropWhile_eq_nil_iff] at hdw
        have hcontra := hdw '.' hdot
        simp at hcontra
      | cons d l2 => exact ⟨d, l2, rfl⟩
    have hsplit : l = l.takeWhile Char.isDigit ++ d :: l2 := by
      conv_lhs => rw [← List.takeWhile_append_dropWhile (p := Char.isDigit) (l := l)]
      rw [hrest]
    have hdd : d = '.' := by
      have hdnd : d.isDigit = false := dropWhile_head_false _ l d l2 hrest
      have hdmem : d ∈ l := by
        rw [hsplit]
        simp
      have hdd2 := hall d hdmem
      simp only [isDigitDot, Bool.or_eq_true, hdnd] at hdd2
      simpa using hdd2
    subst hdd
    obtain ⟨l1, hl1⟩ : ∃ l1, l.takeWhile Char.isDigit = l1 := ⟨_, rfl⟩
    rw [hl1] at hsplit
    have hd1 : ∀ c ∈ l1, c.isDigit = true := by
      intro c hc
      rw [← hl1] at hc
      exact List.mem_takeWhile_imp hc
    subst hsplit
    have hd2 : ∀ c ∈ l2, c.isDigit = true := by
      intro c hc
      have hcl : c ∈ l1 ++ '.' :: l2 := by simp [hc]
      have hcd := hall c hcl
      simp only [isDigitDot, Bool.or_eq_true] at hcd
      rcases hcd with h | h
      · exact h
      · have hceq : c = '.' := by simpa using h
        exfalso
        subst hceq
        have h2 : 0 < l2.count '.' := List.count_pos_iff.mpr hc
        have h3 : (('.' : Char) :: l2).count '.' = l2.count '.' + 1 := by
          simp [List.count_cons]
        rw [List.count_append, h3] at hcount
        omega
    have hne2 : ¬ (l1 = [] ∧ l2 = []) := by
      rintro ⟨rfl, rfl⟩
      simp at hc0mem
      rw [hc0mem] at hc0dig
      exact absurd hc0dig (by decide)
    simp only [run, makeTokens_floatLit fn l1 l2 hd1 hd2, allSomeTokens,
      Option.map, parseP_single_numToken TT_FLOAT (Or.inr rfl), mkNumberNode]
    rw [show (99 : Nat) = 98 + 1 from rfl]
    simp only [visit, visitNumberNode, mkToken, Option.getD]
    rw [if_neg (show ¬ TT_FLOAT = TT_INT from by simp [TT_FLOAT, TT_INT]),
      jsParseFloat_digits l1 l2 hd1 hd2 hne2]
    have hlv : literalValue (l1 ++ '.' :: l2) =
        (digitsVal l1 : ℚ) + (digitsVal l2 : ℚ) / (10 : ℚ) ^ l2.length := by
      have hdotd : ('.' : Char).isDigit = false := by decide
      simp only [literalValue, dropWhile_all_append _ l1 hd1 '.' l2 hdotd,
        takeWhile_all_append _ l1 hd1 '.' l2 hdotd]
    simp [Except.map, hlv, hdot, TT_FLOAT, TT_INT]

theorem C8_numeric_literal_pipeline_witness :
    validNumLit ['4', '2'] ∧
    (run 99 "<f>" (String.mk ['4', '2']) globalStore).map
      (fun r => r.1.map (fun v => match v with
        | .num q i k _ => some (q, i, k)
        | _ => none)) =
      .ok (some (some (literalValue ['4', '2'], decide ('.' ∉ ['4', '2']),
        NumKind.plain))) :=
  ⟨⟨by decide, by decide, '4', by decide, by decide⟩,
   C8_numeric_literal_pipeline.2.2 "<f>" ['4', '2']
     ⟨by decide, by decide, '4', by decide, by decide⟩⟩

/-- Non-whitespace characters: everything the lexer does not skip
(the skipped set is space, tab and newline). -/
def nonWS (c : Char) : Bool := !(c == ' ' || c == '\t' || c == '\n')

/-- The source characters covered by a token: the slice of the input from
`posStart.index` (inclusive) to `posEnd.index` (exclusive); a missing token
(the `undefined` pushed for a lone `&` or `|`) covers nothing. -/
def tokenSpanChars (text : List Char) : Option Token → List Char
  | none => []
  | some t =>
    match t.posStart, t.posEnd with
    | some p1, some p2 => (text.take p2.index).drop p1.index
    | _, _ => []

/-- Concatenation of the source characters covered by a token list. -/
def spansConcat (text : List Char) : List (Option Token) → List Char
  | [] => []
  | t :: ts => tokenSpanChars text t ++ spansConcat text ts

theorem Position.advance_index (p : Position) (c : Option Char) :
    (p.advance c).index = p.index + 1 := by
  simp only [Position.advance]
  split <;> rfl

theorem lexAdvance_index (s : LexState) :
    (lexAdvance s).pos.index = s.pos.index + 1 :=
  Position.advance_index s.pos s.rest.head?

theorem except_map_ok {α β γ : Type} (f : α → β) (e : Except γ α) (b : β)
    (h : e.map f = .ok b) : ∃ a, e = .ok a ∧ b = f a := by
  cases e with
  | error x => simp [Except.map] at h
  | ok a =>
    simp only [Except.map] at h
    refine ⟨a, rfl, ?_⟩
    injection h with h
    exact h.symm

theorem nonWS_of_digitDot (c : Char) (h : isDigitDot c = true) :
    nonWS c = true := by
  have h1 : c ≠ ' ' := by rintro rfl; exact absurd h (by decide)
  have h2 : c ≠ '\t' := by rintro rfl; exact absurd h (by decide)
  have h3 : c ≠ '\n' := by rintro rfl; exact absurd h (by decide)
  simp [nonWS, h1, h2, h3]

theorem nonWS_of_letter (c : Char) (h : isLetterCh c = true) :
    nonWS c = true := by
  have h1 : c ≠ ' ' := by rintro rfl; exact absurd h (by decide)
  have h2 : c ≠ '\t' := by rintro rfl; exact absurd h (by decide)
  have h3 : c ≠ '\n' := by rintro rfl; exact absurd h (by decide)
  simp [nonWS, h1, h2, h3]

theorem makeNumberLoop_consumes (l : List Char) (pos : Position) (acc : String)
    (d : Bool) :
    ∃ k, (makeNumberLoop l pos acc d).1 = l.drop k ∧
      (makeNumberLoop l pos acc d).2.1.index = pos.index + k ∧
      ∀ c ∈ l.take k, isDigitDot c = true := by
  induction l generalizing pos acc d with
  | nil => exact ⟨0, by simp [makeNumberLoop]⟩
  | cons c r ih =>
    by_cases h1 : isDigitDot c
    case neg =>
      refine ⟨0, ?_⟩
      simp [makeNumberLoop, h1]
    case pos =>
      by_cases h2 : c = '.'
      · subst h2
        by_cases h3 : d
        · refine ⟨0, ?_⟩
          simp [makeNumberLoop, h1, h3]
        · obtain ⟨k, e1, e2, e3⟩ := ih (pos.advance (some '.')) (acc.push '.') true
          have hstep : makeNumberLoop ('.' :: r) pos acc d =
              makeNumberLoop r (pos.advance (some '.')) (acc.push '.') true := by
            simp [makeNumberLoop, h1, h3]
          refine ⟨k + 1, ?_, ?_, ?_⟩
          · rw [hstep, e1]
            rfl
          · rw [hstep, e2, Position.advance_index]
            omega
          · intro x hx
            simp only [List.take_succ_cons, List.mem_cons] at hx
            rcases hx with rfl | hx
            · exact h1
            · exact e3 x hx
      · obtain ⟨k, e1, e2, e3⟩ := ih (pos.advance (some c)) (acc.push c) d
        have hstep : makeNumberLoop (c :: r) pos acc d =
            makeNumberLoop r (pos.advance (some c)) (acc.push c) d := by
          simp [makeNumberLoop, h1, h2]
        refine ⟨k + 1, ?_, ?_, ?_⟩
        · rw [hstep, e1]
          rfl
        · rw [hstep, e2, Position.advance_index]
          omega
        · intro x hx
          simp only [List.take_succ_cons, List.mem_cons] at hx
          rcases hx with rfl | hx
          · exact h1
          · exact e3 x hx

theorem makeIdentifierLoop_consumes (l : List Char) (pos : Position)
    (acc : String) :
    ∃ k, (makeIdentifierLoop l pos acc).1 = l.drop k ∧
      (makeIdentifierLoop l pos acc).2.1.index = pos.index + k ∧
      ∀ c ∈ l.take k, isLetterCh c = true := by
  induction l generalizing pos acc with
  | nil => exact ⟨0, by simp [makeIdentifierLoop]⟩
  | cons c r ih =>
    by_cases h1 : isLetterCh c
    case neg =>
      refine ⟨0, ?_⟩
      simp [makeIdentifierLoop, h1]
    case pos =>
      obtain ⟨k, e1, e2, e3⟩ := ih (pos.advance (some c)) (acc.push c)
      have hstep : makeIdentifierLoop (c :: r) pos acc =
          makeIdentifierLoop r (pos.advance (some c)) (acc.push c) := by
        simp [makeIdentifierLoop, h1]
      refine ⟨k + 1, ?_, ?_, ?_⟩
      · rw [hstep, e1]
        rfl
      · rw [hstep, e2, Position.advance_index]
        omega
      · intro x hx
        simp only [List.take_succ_cons, List.mem_cons] at hx
        rcases hx with rfl | hx
        · exact h1
        · exact e3 x hx

theorem makeNumber_consumes (s : LexState) :
    ∃ k, (makeNumber s).1.posStart = some s.pos ∧
      (∃ p2, (makeNumber s).1.posEnd = some p2 ∧ p2.index = s.pos.index + k) ∧
      (makeNumber s).2.rest = s.rest.drop k ∧
      (makeNumber s).2.pos.index = s.pos.index + k ∧
      ∀ c ∈ s.rest.take k, nonWS c = true := by
  obtain ⟨k, e1, e2, e3⟩ := makeNumberLoop_consumes s.rest s.pos "" false
  refine ⟨k, by simp [makeNumber, mkToken, Position.copy],
    ⟨(makeNumberLoop s.rest s.pos "" false).2.1, by simp [makeNumber, mkToken], e2⟩,
    by simpa [makeNumber] using e1, by simpa [makeNumber] using e2,
    fun x hx => nonWS_of_digitDot x (e3 x hx)⟩

theorem makeIdentifier_consumes (s : LexState) :
    ∃ k, (makeIdentifier s).1.posStart = some s.pos ∧
      (∃ p2, (makeIdentifier s).1.posEnd = some p2 ∧ p2.index = s.pos.index + k) ∧
      (makeIdentifier s).2.rest = s.rest.drop k ∧
      (makeIdentifier s).2.pos.index = s.pos.index + k ∧
      ∀ c ∈ s.rest.take k, nonWS c = true := by
  obtain ⟨k, e1, e2, e3⟩ := makeIdentifierLoop_consumes s.rest s.pos ""
  refine ⟨k, by simp [makeIdentifier, mkToken, Position.copy],
    ⟨(makeIdentifierLoop s.rest s.pos "").2.1, by simp [makeIdentifier, mkToken], e2⟩,
    by simpa [makeIdentifier] using e1, by simpa [makeIdentifier] using e2,
    fun x hx => nonWS_of_letter x (e3 x hx)⟩

/-- No `&`, `|` or `"` occurs: `&`/`|` are where the lexer loses input and a
string literal span retains interior whitespace. -/
abbrev NoSpecials (l : List Char) : Prop := ∀ c ∈ l, c ≠ '&' ∧ c ≠ '|' ∧ c ≠ '"'

/-- The lexer loop invariant: a successful run from any state whose unread
suffix matches its position reconstructs, through the produced token spans,
exactly the non-whitespace part of that suffix. -/
def SpansOk (text : List Char) (fuel : Nat) : Prop :=
  ∀ (s : LexState) (toks : List (Option Token)),
    s.rest = text.drop s.pos.index →
    NoSpecials s.rest →
    makeTokensLoop fuel s = .ok toks →
    spansConcat text toks = s.rest.filter nonWS

theorem spans_branch (text : List Char) (s s' : LexState) (fuel : Nat)
    (ts' : List (Option Token)) (t : Token) (k : Nat)
    (IH : SpansOk text fuel)
    (hinv : s.rest = text.drop s.pos.index)
    (hns : NoSpecials s.rest)
    (hrec : makeTokensLoop fuel s' = .ok ts')
    (hp1 : ∃ p1, t.posStart = some p1 ∧ p1.index = s.pos.index)
    (hp2 : ∃ p2, t.posEnd = some p2 ∧ p2.index = s.pos.index + k)
    (hs2rest : s'.rest = s.rest.drop k)
    (hs2pos : s'.pos.index = s.pos.index + k)
    (hnw : ∀ c ∈ s.rest.take k, nonWS c = true) :
    spansConcat text (some t :: ts') = s.rest.filter nonWS := by
  obtain ⟨p1, he1, hi1⟩ := hp1
  obtain ⟨p2, he2, hi2⟩ := hp2
  have hs2inv : s'.rest = text.drop s'.pos.index := by
    rw [hs2rest, hinv, List.drop_drop, hs2pos]
  have hns2 : NoSpecials s'.rest := by
    rw [hs2rest]
    intro c hc
    exact hns c (List.mem_of_mem_drop hc)
  have htail := IH s' ts' hs2inv hns2 hrec
  simp only [spansConcat, tokenSpanChars, he1, he2, hi1, hi2]
  rw [htail, hs2rest, ← List.take_drop s.pos.index k text, ← hinv]
  conv_rhs => rw [← List.take_append_drop k s.rest]
  rw [List.filter_append, List.filter_eq_self.mpr hnw]

theorem spans_skip (text : List Char) (s : LexState) (fuel : Nat)
    (toks : List (Option Token)) (c : Char) (r : List Char)
    (IH : SpansOk text fuel)
    (hinv : s.rest = text.drop s.pos.index)
    (hns : NoSpecials s.rest)
    (hr : s.rest = c :: r)
    (hws : nonWS c = false)
    (hrec : makeTokensLoop fuel (lexAdvance s) = .ok toks) :
    spansConcat text toks = s.rest.filter nonWS := by
  have hs2inv : (lexAdvance s).rest = text.drop (lexAdvance s).pos.index := by
    rw [show (lexAdvance s).rest = s.rest.tail from rfl, lexAdvance_index,
      ← List.tail_drop, ← hinv]
  have hns2 : NoSpecials (lexAdvance s).rest := by
    intro x hx
    exact hns x (List.mem_of_mem_tail hx)
  have ht := IH (lexAdvance s) toks hs2inv hns2 hrec
  rw [show (lexAdvance s).rest = s.rest.tail from rfl, hr] at ht
  rw [ht, hr]
  simp [List.filter_cons, hws]

theorem spans_single (text : List Char) (s : LexState) (fuel : Nat)
    (ts' : List (Option Token)) (ty : String) (c : Char) (r : List Char)
    (IH : SpansOk text fuel)
    (hinv : s.rest = text.drop s.pos.index)
    (hns : NoSpecials s.rest)
    (hr : s.rest = c :: r)
    (hc : nonWS c = true)
    (hrec : makeTokensLoop fuel (lexAdvance s) = .ok ts') :
    spansConcat text (some (mkToken ty none (some s.pos) none) :: ts') =
      s.rest.filter nonWS := by
  refine spans_branch text s (lexAdvance s) fuel ts' _ 1 IH hinv hns hrec
    ⟨s.pos, by simp [mkToken], rfl⟩
    ⟨s.pos.advance none, by simp [mkToken], Position.advance_index s.pos none⟩
    ?_ (lexAdvance_index s) ?_
  · rw [show (lexAdvance s).rest = s.rest.tail from rfl, hr]
    rfl
  · rw [hr]
    intro x hx
    have ht1 : (c :: r).take 1 = [c] := rfl
    rw [ht1] at hx
    simp only [List.mem_singleton] at hx
    subst hx
    exact hc

theorem spans_twoChar (text : List Char) (s : LexState) (fuel : Nat)
    (toks : List (Option Token)) (t : Token × LexState) (c1 c2 : Char)
    (ty2 ty1 : String) (v2 v1 : Option String) (r : List Char)
    (IH : SpansOk text fuel)
    (hinv : s.rest = text.drop s.pos.index)
    (hns : NoSpecials s.rest)
    (hr : s.rest = c1 :: r)
    (hc1 : nonWS c1 = true) (hc2 : nonWS c2 = true)
    (hmk : t = if (lexAdvance s).rest.head? = some c2 then
        (mkToken ty2 v2 (some s.pos.copy) (some (lexAdvance (lexAdvance s)).pos),
          lexAdvance (lexAdvance s))
      else
        (mkToken ty1 v1 (some s.pos.copy) (some (lexAdvance s).pos), lexAdvance s))
    (h : (makeTokensLoop fuel t.2).map (fun ts => some t.1 :: ts) = .ok toks) :
    spansConcat text toks = s.rest.filter nonWS := by
  obtain ⟨ts', hrec, rfl⟩ := except_map_ok _ _ _ h
  by_cases hh : (lexAdvance s).rest.head? = some c2
  · rw [if_pos hh] at hmk
    subst hmk
    have hradv : (lexAdvance s).rest = r := by
      rw [show (lexAdvance s).rest = s.rest.tail from rfl, hr]
      rfl
    obtain ⟨r2, hr2⟩ : ∃ r2, r = c2 :: r2 := by
      rw [hradv] at hh
      cases r with
      | nil => simp at hh
      | cons a as =>
        have ha : a = c2 := by simpa using hh
        exact ⟨as, by rw [ha]⟩
    refine spans_branch text s (lexAdvance (lexAdvance s)) fuel ts' _ 2 IH hinv
      hns hrec ⟨s.pos, by simp [mkToken, Position.copy], rfl⟩
      ⟨(lexAdvance (lexAdvance s)).pos, by simp [mkToken], ?_⟩ ?_ ?_ ?_
    · rw [lexAdvance_index, lexAdvance_index]
    · rw [show (lexAdvance (lexAdvance s)).rest = s.rest.tail.tail from rfl, hr,
        hr2]
      rfl
    · rw [lexAdvance_index, lexAdvance_index]
    · rw [hr, hr2]
      intro x hx
      have ht2 : (c1 :: c2 :: r2).take 2 = [c1, c2] := rfl
      rw [ht2] at hx
      simp only [List.mem_cons, List.mem_singleton] at hx
      rcases hx with rfl | rfl | hx
      · exact hc1
      · exact hc2
      · exact absurd hx (List.not_mem_nil x)
  · rw [if_neg hh] at hmk
    subst hmk
    refine spans_branch text s (lexAdvance s) fuel ts' _ 1 IH hinv hns hrec
      ⟨s.pos, by simp [mkToken, Position.copy], rfl⟩
      ⟨(lexAdvance s).pos, by simp [mkToken], lexAdvance_index s⟩ ?_
      (lexAdvance_index s) ?_
    · rw [show (lexAdvance s).rest = s.rest.tail from rfl, hr]
      rfl
    · rw [hr]
      intro x hx
      have ht1 : (c1 :: r).take 1 = [c1] := rfl
      rw [ht1] at hx
      simp only [List.mem_singleton] at hx
      subst hx
      exact hc1

theorem makeTokensLoop_spans (fuel : Nat) (text : List Char) :
    SpansOk text fuel := by
  induction fuel with
  | zero =>
    intro s toks _ _ h
    simp [makeTokensLoop] at h
  | succ fuel IH =>
    intro s toks hinv hns h
    rw [makeTokensLoop] at h
    cases hr : s.rest with
    | nil =>
      simp only [hr] at h
      simp only [Except.ok.injEq] at h
      subst h
      simp only [spansConcat, tokenSpanChars, mkToken]
      rw [List.filter_nil, List.append_nil, Position.advance_index,
        ← List.take_drop, ← hinv, hr]
      rfl
    | cons c r =>
      simp only [hr] at h
      rw [← hr]
      have hcmem : c ∈ s.rest := by
        rw [hr]
        exact List.mem_cons_self c r
      by_cases h1 : isDigitDot c
      · rw [if_pos h1] at h
        obtain ⟨ts', hrec, rfl⟩ := except_map_ok _ _ _ h
        obtain ⟨k, hps, hpe, hrest2, hpos2, hdd⟩ := makeNumber_consumes s
        exact spans_branch text s (makeNumber s).2 fuel ts' (makeNumber s).1 k
          IH hinv hns hrec ⟨s.pos, hps, rfl⟩ hpe hrest2 hpos2 hdd
      · rw [if_neg h1] at h
        by_cases h2 : isLetterCh c
        · rw [if_pos h2] at h
          obtain ⟨ts', hrec, rfl⟩ := except_map_ok _ _ _ h
          obtain ⟨k, hps, hpe, hrest2, hpos2, hdd⟩ := makeIdentifier_consumes s
          exact spans_branch text s (makeIdentifier s).2 fuel ts'
            (makeIdentifier s).1 k IH hinv hns hrec ⟨s.pos, hps, rfl⟩ hpe
            hrest2 hpos2 hdd
        · rw [if_neg h2] at h
          by_cases h3 : c = ' ' ∨ c = '\t' ∨ c = '\n'
          · rw [if_pos h3] at h
            exact spans_skip text s fuel toks c r IH hinv hns hr
              (by rcases h3 with rfl | rfl | rfl <;> decide) h
          · rw [if_neg h3] at h
            by_cases h4 : c = '+'
            · rw [if_pos h4] at h
              subst h4
              obtain ⟨ts', hrec, rfl⟩ := except_map_ok _ _ _ h
              exact spans_single text s fuel ts' TT_PLUS '+' r IH hinv hns hr
                (by decide) hrec
            · rw [if_neg h4] at h
              by_cases h5 : c = '-'
              · rw [if_pos h5] at h
                subst h5
                exact spans_twoChar text s fuel toks (makeMinusOrArrow s) '-'
                  '>' TT_ARROW TT_MINUS none none r IH hinv hns hr (by decide)
                  (by decide) rfl h
              · rw [if_neg h5] at h
                by_cases h6 : c = '*'
                · rw [if_pos h6] at h
                  subst h6
                  exact spans_twoChar text s fuel toks (makeMulOrPow s) '*' '*'
                    TT_POW TT_MUL none none r IH hinv hns hr (by decide)
                    (by decide) rfl h
                · rw [if_neg h6] at h
                  by_cases h7 : c = '/'
                  · rw [if_pos h7] at h
                    subst h7
                    obtain ⟨ts', hrec, rfl⟩ := except_map_ok _ _ _ h
                    exact spans_single text s fuel ts' TT_DIV '/' r IH hinv hns
                      hr (by decide) hrec
                  · rw [if_neg h7] at h
                    by_cases h8 : c = '('
                    · rw [if_pos h8] at h
                      subst h8
                      obtain ⟨ts', hrec, rfl⟩ := except_map_ok _ _ _ h
                      exact spans_single text s fuel ts' TT_LPAREN '(' r IH
                        hinv hns hr (by decide) hrec
                    · rw [if_neg h8] at h
                      by_cases h9 : c = ')'
                      · rw [if_pos h9] at h
                        subst h9
                        obtain ⟨ts', hrec, rfl⟩ := except_map_ok _ _ _ h
                        exact spans_single text s fuel ts' TT_RPAREN ')' r IH
                          hinv hns hr (by decide) hrec
                      · rw [if_neg h9] at h
                        by_cases h10 : c = '['
                        · rw [if_pos h10] at h
                          subst h10
                          obtain ⟨ts', hrec, rfl⟩ := except_map_ok _ _ _ h
                          exact spans_single text s fuel ts' TT_LSQUARE '[' r
                            IH hinv hns hr (by decide) hrec
                        · rw [if_neg h10] at h
                          by_cases h11 : c = ']'
                          · rw [if_pos h11] at h
                            subst h11
                            obtain ⟨ts', hrec, rfl⟩ := except_map_ok _ _ _ h
                            exact spans_single text s fuel ts' TT_RSQUARE ']' r
                              IH hinv hns hr (by decide) hrec
                          · rw [if_neg h11] at h
                            by_cases h12 : c = ','
                            · rw [if_pos h12] at h
                              subst h12
                              obtain ⟨ts', hrec, rfl⟩ := except_map_ok _ _ _ h
                              exact spans_single text s fuel ts' TT_COMMA ',' r
                                IH hinv hns hr (by decide) hrec
                            · rw [if_neg h12] at h
                              by_cases h13 : c = '!'
                              · rw [if_pos h13] at h
                                subst h13
                                exact spans_twoChar text s fuel toks
                                  (makeNotEquals s) '!' '=' TT_NE TT_KEYWORD
                                  none (some "!") r IH hinv hns hr (by decide)
                                  (by decide) rfl h
                              · rw [if_neg h13] at h
                                by_cases h14 : c = '='
                                · rw [if_pos h14] at h
                                  subst h14
                                  exact spans_twoChar text s fuel toks
                                    (makeEquals s) '=' '=' TT_EE TT_EQ none
                                    none r IH hinv hns hr (by decide)
                                    (by decide) rfl h
                                · rw [if_neg h14] at h
                                  by_cases h15 : c = '>'
                                  · rw [if_pos h15] at h
                                    subst h15
                                    exact spans_twoChar text s fuel toks
                                      (makeGreaterThan s) '>' '=' TT_GTE TT_GT
                                      none none r IH hinv hns hr (by decide)
                                      (by decide) rfl h
                                  · rw [if_neg h15] at h
                                    by_cases h16 : c = '<'
                                    · rw [if_pos h16] at h
                                      subst h16
                                      exact spans_twoChar text s fuel toks
                                        (makeLessThan s) '<' '=' TT_LTE TT_LT
                                        none none r IH hinv hns hr (by decide)
                                        (by decide) rfl h
                                    · rw [if_neg h16] at h
                                      by_cases h17 : c = '&'
                                      · exact absurd h17 (hns c hcmem).1
                                      · rw [if_neg h17] at h
                                        by_cases h18 : c = '|'
                                        · exact absurd h18 (hns c hcmem).2.1
                                        · rw [if_neg h18] at h
                                          by_cases h19 : c = '"'
                                          · exact absurd h19 (hns c hcmem).2.2
                                          · rw [if_neg h19] at h
                                            simp at h

/-- The token list the lexer produces for `1+ 2`. -/
def C7toks : List (Option Token) :=
  match makeTokens "<f>" "1+ 2" with
  | .ok ts => ts
  | .error _ => []

theorem C7_counterexample :
    (makeTokens "<f>" "&").map (spansConcat "&".toList) = .ok [] ∧
    "&".toList.filter nonWS = ['&'] :=
  ⟨rfl, rfl⟩

/-- Claim C7 (amended): on inputs free of `&`, `|` and `"`, a successful
tokenization never drops input — concatenating the source characters covered
by the emitted tokens\x27 spans reconstructs exactly the original character
sequence with whitespace removed.  (On the full input language the claim
fails: a lone `&` or `|` tokenizes successfully yet its character is covered
by no token span, and a string literal span retains interior whitespace.) -/
theorem C7_lexer_round_trip (fileName text : String)
    (toks : List (Option Token))
    (hns : NoSpecials text.toList)
    (h : makeTokens fileName text = .ok toks) :
    spansConcat text.toList toks = text.toList.filter nonWS := by
  have hrun := makeTokensLoop_spans (text.length + 1) text.toList
    (lexInit fileName text) toks (by simp [lexInit]) (by simpa [lexInit] using hns) h
  simpa [lexInit] using hrun

theorem C7_lexer_round_trip_witness :
    NoSpecials "1+ 2".toList ∧
    spansConcat "1+ 2".toList C7toks = "1+ 2".toList.filter nonWS :=
  ⟨by decide, C7_lexer_round_trip "<f>" "1+ 2" C7toks (by decide) rfl⟩

/-- The global store after defining `fun add(a,b) -> a+b`. -/
def st_add : Store :=
  match run 99 "<stdin>" "fun add(a,b) -> a+b" globalStore with
  | .ok r => r.2
  | .error _ => globalStore

/-- Claim C5: arity is checked strictly before the body is touched, for
user-defined functions (`FunctionValue.exceute`) and builtins
(`BuiltInFunction.exceute`) alike: with the function context in place, more
arguments than parameters fails with the `too many args` `RTError` and fewer
with the `too few args` `RTError` (naming the function and the two counts),
for *every* body respectively *every* native method — so the body is never
evaluated; concretely `add(2,3)` returns `5` while `add(1)` and `add(1,2,3)`
raise the two arity errors, and the builtin calls `isInt(1,2)` and `isInt()`
raise them likewise. -/
theorem C5_arity_strict :
    (∀ (fuel : Nat) (name : String) (body : Node) (argNames : List String)
        (tag : Tag) (c : BasicContext) (args : List Value) (st : Store),
        tag.ctx = some c →
        argNames.length < args.length →
        exceuteFn (fuel + 1) name body argNames tag args st =
          .error (.rt tag.posStart tag.posEnd
            (toString args.length ++ " - " ++ toString argNames.length ++
              " too many args passed into \x27" ++ name ++ "\x27") tag.ctx)) ∧
    (∀ (fuel : Nat) (name : String) (body : Node) (argNames : List String)
        (tag : Tag) (c : BasicContext) (args : List Value) (st : Store),
        tag.ctx = some c →
        args.length < argNames.length →
        exceuteFn (fuel + 1) name body argNames tag args st =
          .error (.rt tag.posStart tag.posEnd
            (toString args.length ++ " - " ++ toString argNames.length ++
              " too few args passed into \x27" ++ name ++ "\x27") tag.ctx)) ∧
    (∀ (fuel : Nat) (name : String) (argNames : List String)
        (kind : BuiltinKind) (tag : Tag) (c : BasicContext) (args : List Value)
        (st : Store),
        tag.ctx = some c →
        argNames.length < args.length →
        exceuteBuiltin (fuel + 1) name argNames kind tag args st =
          .error (.rt tag.posStart tag.posEnd
            (toString args.length ++ " - " ++ toString argNames.length ++
              " too many args passed into \x27" ++ name ++ "\x27") tag.ctx)) ∧
    (∀ (fuel : Nat) (name : String) (argNames : List String)
        (kind : BuiltinKind) (tag : Tag) (c : BasicContext) (args : List Value)
        (st : Store),
        tag.ctx = some c →
        args.length < argNames.length →
        exceuteBuiltin (fuel + 1) name argNames kind tag args st =
          .error (.rt tag.posStart tag.posEnd
            (toString args.length ++ " - " ++ toString argNames.length ++
              " too few args passed into \x27" ++ name ++ "\x27") tag.ctx)) ∧
    (run 99 "<stdin>" "add(2,3)" st_add).map (fun r => r.1.map numView) =
      .ok (some (5, true)) ∧
    (match run 99 "<stdin>" "add(1)" st_add with
      | .error (.rt _ _ m _) => some m
      | _ => none) = some "1 - 2 too few args passed into \x27add\x27" ∧
    (match run 99 "<stdin>" "add(1,2,3)" st_add with
      | .error (.rt _ _ m _) => some m
      | _ => none) = some "3 - 2 too many args passed into \x27add\x27" ∧
    (match run 99 "<stdin>" "isInt(1,2)" globalStore with
      | .error (.rt _ _ m _) => some m
      | _ => none) = some "2 - 1 too many args passed into \x27isInt\x27" ∧
    (match run 99 "<stdin>" "isInt()" globalStore with
      | .error (.rt _ _ m _) => some m
      | _ => none) = some "0 - 1 too few args passed into \x27isInt\x27" := by
  refine ⟨?_, ?_, ?_, ?_, by with_unfolding_all rfl, by with_unfolding_all rfl,
    by with_unfolding_all rfl, by with_unfolding_all rfl,
    by with_unfolding_all rfl⟩
  · intro fuel name body argNames tag c args st hctx h
    simp only [exceuteFn, getFunContext, hctx, allocTable, Bind.bind,
      Except.bind, checkArgs, if_pos h]
  · intro fuel name body argNames tag c args st hctx h
    simp only [exceuteFn, getFunContext, hctx, allocTable, Bind.bind,
      Except.bind, checkArgs, if_neg (by omega : ¬ argNames.length < args.length),
      if_pos h]
  · intro fuel name argNames kind tag c args st hctx h
    simp only [exceuteBuiltin, getFunContext, hctx, allocTable, Bind.bind,
      Except.bind, checkArgs, if_pos h]
  · intro fuel name argNames kind tag c args st hctx h
    simp only [exceuteBuiltin, getFunContext, hctx, allocTable, Bind.bind,
      Except.bind, checkArgs, if_neg (by omega : ¬ argNames.length < args.length),
      if_pos h]

theorem C5_arity_strict_witness :
    exceuteFn 1 "f" (mkNumberNode (mkToken TT_INT (some "1") none none)) ["a"]
        { noTag with ctx := some programCtx } [nullV, nullV] globalStore =
      .error (.rt none none "2 - 1 too many args passed into \x27f\x27"
        (some programCtx)) ∧
    exceuteFn 1 "f" (mkNumberNode (mkToken TT_INT (some "1") none none)) ["a"]
        { noTag with ctx := some programCtx } [] globalStore =
      .error (.rt none none "0 - 1 too few args passed into \x27f\x27"
        (some programCtx)) ∧
    exceuteBuiltin 1 "isInt" ["value"] .isIntB
        { noTag with ctx := some programCtx } [nullV, nullV] globalStore =
      .error (.rt none none "2 - 1 too many args passed into \x27isInt\x27"
        (some programCtx)) ∧
    exceuteBuiltin 1 "isInt" ["value"] .isIntB
        { noTag with ctx := some programCtx } [] globalStore =
      .error (.rt none none "0 - 1 too few args passed into \x27isInt\x27"
        (some programCtx)) := by
  refine ⟨?_, ?_, ?_, ?_⟩
  · have h := C5_arity_strict.1 0 "f"
      (mkNumberNode (mkToken TT_INT (some "1") none none)) ["a"]
      { noTag with ctx := some programCtx } programCtx [nullV, nullV]
      globalStore rfl (by decide)
    exact h.trans (by with_unfolding_all rfl)
  · have h := C5_arity_strict.2.1 0 "f"
      (mkNumberNode (mkToken TT_INT (some "1") none none)) ["a"]
      { noTag with ctx := some programCtx } programCtx [] globalStore rfl
      (by decide)
    exact h.trans (by with_unfolding_all rfl)
  · have h := C5_arity_strict.2.2.1 0 "isInt" ["value"] .isIntB
      { noTag with ctx := some programCtx } programCtx [nullV, nullV]
      globalStore rfl (by decide)
    exact h.trans (by with_unfolding_all rfl)
  · have h := C5_arity_strict.2.2.2.1 0 "isInt" ["value"] .isIntB
      { noTag with ctx := some programCtx } programCtx [] globalStore rfl
      (by decide)
    exact h.trans (by with_unfolding_all rfl)

/-- Claim C6 (counterexample): with no truthy condition and no else-branch,
the source returns `res.success(null)` — the evaluation succeeds with *no*
value (the host `null`), not with the language's `NullValue`; so
`if 1==2 then 1` yields no value rather than the Null value. -/
theorem C6_counterexample :
    (run 99 "<stdin>" "if 1==2 then 1" globalStore).map (fun r => r.1) =
      .ok none ∧
    (run 99 "<stdin>" "if 1==2 then 1" globalStore).map (fun r => r.1) ≠
      .ok (some nullV) := by
  refine ⟨by with_unfolding_all rfl, fun h => ?_⟩
  have h2 : (Except.ok none :
      Except RunError (Option Value)) = .ok (some nullV) := by
    rw [← h]
    with_unfolding_all rfl
  simp at h2

/-- Claim C6 (amended): conditions are evaluated in declared order, the first
truthy one selects its branch (whatever cases and else-branch follow are
never evaluated), a falsy head condition passes control to the remaining
cases, an else-branch is evaluated when no condition is truthy — but with no
else-branch the result is *no value* (host `null`), not the `NullValue`;
concretely, the spec's `elif` example yields `2` and the side-effect test
binds only `b`. -/
theorem C6_if_first_truthy :
    (∀ (fuel : Nat) (c e : Node) (rest : List (Node × Node))
        (els : Option Node) (ctx : BasicContext) (st st' : Store) (v : Value),
        visit fuel c ctx st = .ok (some v, st') →
        v.isTrue = true →
        ifLoop (fuel + 1) ((c, e) :: rest) els ctx st = visit fuel e ctx st') ∧
    (∀ (fuel : Nat) (c e : Node) (rest : List (Node × Node))
        (els : Option Node) (ctx : BasicContext) (st st' : Store) (v : Value),
        visit fuel c ctx st = .ok (some v, st') →
        v.isTrue = false →
        ifLoop (fuel + 1) ((c, e) :: rest) els ctx st =
          ifLoop fuel rest els ctx st') ∧
    (∀ (fuel : Nat) (e : Node) (ctx : BasicContext) (st : Store),
        ifLoop (fuel + 1) [] (some e) ctx st = visit fuel e ctx st) ∧
    (∀ (fuel : Nat) (ctx : BasicContext) (st : Store),
        ifLoop (fuel + 1) ([] : List (Node × Node)) none ctx st =
          .ok (none, st)) ∧
    (run 99 "<stdin>" "if 1==2 then 1 elif 2==2 then 2 else 3"
        globalStore).map (fun r => r.1.map numView) = .ok (some (2, true)) ∧
    (run 99 "<stdin>"
        "if 1==2 then var a = 1 elif 2==2 then var b = 2 else var c = 3"
        globalStore).map
      (fun r => ((symGet r.2 0 "a").isSome, (symGet r.2 0 "b").isSome,
        (symGet r.2 0 "c").isSome)) = .ok (false, true, false) := by
  refine ⟨?_, ?_, fun fuel e ctx st => rfl, fun fuel ctx st => rfl,
    by with_unfolding_all rfl, by with_unfolding_all rfl⟩
  · intro fuel c e rest els ctx st st' v h1 h2
    simp only [ifLoop, h1, Bind.bind, Except.bind, getV, h2, if_true]
  · intro fuel c e rest els ctx st st' v h1 h2
    simp only [ifLoop, h1, Bind.bind, Except.bind, getV, h2, Bool.false_eq_true,
      if_false]

theorem C6_if_first_truthy_witness :
    ifLoop 4 [(mkNumberNode (mkToken TT_INT (some "1") none none),
        mkNumberNode (mkToken TT_INT (some "2") none none))] none
        programCtx globalStore =
      visit 3 (mkNumberNode (mkToken TT_INT (some "2") none none))
        programCtx globalStore :=
  C6_if_first_truthy.1 3 (mkNumberNode (mkToken TT_INT (some "1") none none))
    (mkNumberNode (mkToken TT_INT (some "2") none none)) [] none programCtx
    globalStore globalStore
    (.num 1 true .plain
      { posStart := (mkToken TT_INT (some "1") (none : Option Position) none).posStart,
        posEnd := (mkToken TT_INT (some "1") (none : Option Position) none).posEnd,
        ctx := some programCtx })
    (by with_unfolding_all rfl) (by with_unfolding_all rfl)

theorem C9_append_mutates_and_returns_length_witness :
    (exceuteBuiltin 1 "append" ["list", "value"] .appendB
        { noTag with ctx := some programCtx }
        [.list 0 noTag, .num 7 true .plain noTag]
        { arrays := [[]], tables := globalStore.tables }).map
      (fun r => (r.1, arrGet r.2 0)) =
      .ok (some (.num (0 + 1) true .plain noTag),
        some ([] ++ [(Value.num 7 true .plain noTag).setCtx
          (some (BasicContext.mk "append" (some programCtx) none 1))])) :=
  C9_append_mutates_and_returns_length 0 { noTag with ctx := some programCtx }
    programCtx 0 noTag (.num 7 true .plain noTag) []
    { arrays := [[]], tables := globalStore.tables } rfl rfl

end MyLang
